import Mathlib

/-!
Shallow embedding of the core pipeline of the error-detective-ai
repository: the log-line classifier and aggregator (`LogParser`), the
repository-search federation (`MCPManager`) and the analysis orchestrator
(`AnalysisEngine` together with `AIProviderManager.generateAnalysis`).

Modelling conventions:
* JavaScript runtime values flowing out of `JSON.parse` are modelled by the
  `Json` inductive; `undefined` is modelled by `Option Json` being `none`.
  JSON numbers are modelled as exact rationals: the source never performs
  arithmetic on them, it only passes them through and tests truthiness.
* A thrown JavaScript exception is modelled by `Except String`; an
  `async` function that can reject is a function into `Except String`.
* The external completion service ("oracle") is a parameter of type
  `String → Except String String`: for each prompt it either yields the
  response text or rejects.
* `Date` values are epoch milliseconds (`Option Int`, `none` = Invalid
  Date).  The host timezone is assumed to be UTC, which the reference
  deployment (a server container) uses.
-/

/-- JSON values as produced by `JSON.parse`. -/
inductive Json where
  | null
  | bool (b : Bool)
  | num (q : Rat)
  | str (s : String)
  | arr (elems : List Json)
  | obj (fields : List (String × Json))

mutual

/-- Structural (value) equality of JSON values.  JS `Array.includes` and
`Set` use SameValueZero, which coincides with value equality on the
primitive values (strings, numbers, booleans, null) that the source ever
compares; object identity is not modelled. -/
def Json.beq : Json → Json → Bool
  | .null, .null => true
  | .bool a, .bool b => a == b
  | .num a, .num b => a == b
  | .str a, .str b => a == b
  | .arr a, .arr b => Json.beqList a b
  | .obj a, .obj b => Json.beqFields a b
  | _, _ => false

def Json.beqList : List Json → List Json → Bool
  | [], [] => true
  | a :: as, b :: bs => Json.beq a b && Json.beqList as bs
  | _, _ => false

def Json.beqFields : List (String × Json) → List (String × Json) → Bool
  | [], [] => true
  | (ka, va) :: as, (kb, vb) :: bs => ka == kb && Json.beq va vb && Json.beqFields as bs
  | _, _ => false

end

instance : BEq Json := ⟨Json.beq⟩

/-- JS truthiness of a defined value. -/
def Json.truthy : Json → Bool
  | .null => false
  | .bool b => b
  | .num q => q != 0
  | .str s => s != ""
  | .arr _ => true
  | .obj _ => true

/-- JS truthiness of a possibly-undefined value. -/
def jsTruthy : Option Json → Bool
  | none => false
  | some v => v.truthy

/-- JS property access `v.k` on a parsed JSON value: objects give the last
binding for the key (later duplicate keys overwrite earlier ones), anything
else gives `undefined`. -/
def Json.getField : Json → String → Option Json
  | .obj fields, k => ((fields.reverse).find? (fun p => p.1 == k)).map (fun p => p.2)
  | _, _ => none

/-- JS `a || b` where `a` may be undefined and `b` is a literal default. -/
def jsOr (a : Option Json) (b : Json) : Json :=
  match a with
  | some v => if v.truthy then v else b
  | none => b

/-- JS `a || b` where both sides may be undefined. -/
def jsOr2 (a b : Option Json) : Option Json :=
  match a with
  | some v => if v.truthy then some v else b
  | none => b

/-- ASCII lower-casing of one character; models `String.prototype.toLowerCase`
on the ASCII tokens the source lowercases (regex `\w` tokens are ASCII). -/
def lowerChar (c : Char) : Char :=
  if 65 ≤ c.toNat && c.toNat ≤ 90 then Char.ofNat (c.toNat + 32) else c

def lowerStr (s : String) : String := ⟨s.data.map lowerChar⟩

def upperChar (c : Char) : Char :=
  if 97 ≤ c.toNat && c.toNat ≤ 122 then Char.ofNat (c.toNat - 32) else c

def upperStr (s : String) : String := ⟨s.data.map upperChar⟩

/-- Does `p` occur at the head of `l`? (helper for substring search). -/
def startsSeg : List Char → List Char → Bool
  | [], _ => true
  | _ :: _, [] => false
  | p :: ps, c :: cs => p == c && startsSeg ps cs

/-- Does `n` occur as a contiguous segment of `h`?  Models JS
`String.prototype.includes`. -/
def containsSeg (n : List Char) : List Char → Bool
  | [] => startsSeg n []
  | c :: cs => startsSeg n (c :: cs) || containsSeg n cs

/-- `hay.includes(needle)` on strings. -/
def jsIncludes (hay needle : String) : Bool := containsSeg needle.data hay.data

/-- The JS `\s` character class (whitespace, used by `trim` and regexes). -/
def isJsWs (c : Char) : Bool :=
  c == ' ' || c == '\t' || c == '\n' || c == '\r' || c.toNat == 11 || c.toNat == 12 ||
  c.toNat == 0xa0 || c.toNat == 0x1680 || (0x2000 ≤ c.toNat && c.toNat ≤ 0x200a) ||
  c.toNat == 0x2028 || c.toNat == 0x2029 || c.toNat == 0x202f || c.toNat == 0x205f ||
  c.toNat == 0x3000 || c.toNat == 0xfeff

/-- Line terminators, which the regex `.` never matches. -/
def isLineTerm (c : Char) : Bool :=
  c == '\n' || c == '\r' || c.toNat == 0x2028 || c.toNat == 0x2029

/-- The JS `\w` character class. -/
def isWordChar (c : Char) : Bool :=
  (65 ≤ c.toNat && c.toNat ≤ 90) || (97 ≤ c.toNat && c.toNat ≤ 122) ||
  (48 ≤ c.toNat && c.toNat ≤ 57) || c == '_'

/-- The JS `\d` character class. -/
def isDigitChar (c : Char) : Bool := 48 ≤ c.toNat && c.toNat ≤ 57

/-- `String.prototype.trim`. -/
def trimJS (s : String) : String :=
  ⟨((s.data.dropWhile (fun c => isJsWs c)).reverse.dropWhile (fun c => isJsWs c)).reverse⟩

/- ### JSON.parse -/

/-- JSON insignificant whitespace. -/
def isJsonWs (c : Char) : Bool := c == ' ' || c == '\t' || c == '\n' || c == '\r'

def skipJsonWs (l : List Char) : List Char := l.dropWhile (fun c => isJsonWs c)

def hexVal (c : Char) : Option Nat :=
  if 48 ≤ c.toNat && c.toNat ≤ 57 then some (c.toNat - 48)
  else if 97 ≤ c.toNat && c.toNat ≤ 102 then some (c.toNat - 87)
  else if 65 ≤ c.toNat && c.toNat ≤ 70 then some (c.toNat - 55)
  else none

/-- Body of a JSON string literal after the opening quote; builds the decoded
characters (reversed accumulator).  Lone UTF-16 surrogates, which Lean
strings cannot represent, are decoded to U+FFFD. -/
def parseStringBody : Nat → List Char → List Char → Option (String × List Char)
  | 0, _, _ => none
  | _ + 1, [], _ => none
  | fuel + 1, c :: rest, acc =>
    if c = '"' then some (⟨acc.reverse⟩, rest)
    else if c = '\\' then
      match rest with
      | [] => none
      | e :: rest2 =>
        if e = '"' then parseStringBody fuel rest2 ('"' :: acc)
        else if e = '\\' then parseStringBody fuel rest2 ('\\' :: acc)
        else if e = '/' then parseStringBody fuel rest2 ('/' :: acc)
        else if e = 'b' then parseStringBody fuel rest2 (Char.ofNat 8 :: acc)
        else if e = 'f' then parseStringBody fuel rest2 (Char.ofNat 12 :: acc)
        else if e = 'n' then parseStringBody fuel rest2 ('\n' :: acc)
        else if e = 'r' then parseStringBody fuel rest2 ('\r' :: acc)
        else if e = 't' then parseStringBody fuel rest2 ('\t' :: acc)
        else if e = 'u' then
          match rest2 with
          | h1 :: h2 :: h3 :: h4 :: rest3 =>
            match hexVal h1, hexVal h2, hexVal h3, hexVal h4 with
            | some a, some b, some c2, some d =>
              let n := ((a * 16 + b) * 16 + c2) * 16 + d
              if 0xd800 ≤ n && n ≤ 0xdbff then
                match rest3 with
                | '\\' :: 'u' :: g1 :: g2 :: g3 :: g4 :: rest4 =>
                  match hexVal g1, hexVal g2, hexVal g3, hexVal g4 with
                  | some a2, some b2, some c3, some d2 =>
                    let m := ((a2 * 16 + b2) * 16 + c3) * 16 + d2
                    if 0xdc00 ≤ m && m ≤ 0xdfff then
                      parseStringBody fuel rest4
                        (Char.ofNat (0x10000 + (n - 0xd800) * 0x400 + (m - 0xdc00)) :: acc)
                    else parseStringBody fuel rest3 (Char.ofNat 0xfffd :: acc)
                  | _, _, _, _ => parseStringBody fuel rest3 (Char.ofNat 0xfffd :: acc)
                | _ => parseStringBody fuel rest3 (Char.ofNat 0xfffd :: acc)
              else if 0xdc00 ≤ n && n ≤ 0xdfff then
                parseStringBody fuel rest3 (Char.ofNat 0xfffd :: acc)
              else parseStringBody fuel rest3 (Char.ofNat n :: acc)
            | _, _, _, _ => none
          | _ => none
        else none
    else if c.toNat < 0x20 then none
    else parseStringBody fuel rest (c :: acc)

def digitsToNat (ds : List Char) : Nat := ds.foldl (fun a c => a * 10 + (c.toNat - 48)) 0

/-- Strict JSON number grammar, evaluated exactly as a rational. -/
def parseJsonNumber (l : List Char) : Option (Rat × List Char) :=
  let signAndRest : Bool × List Char :=
    match l with
    | '-' :: r => (true, r)
    | _ => (false, l)
  let neg := signAndRest.1
  let l1 := signAndRest.2
  let intPart : Option (Nat × List Char) :=
    match l1 with
    | '0' :: r => some (0, r)
    | c :: _ =>
      if isDigitChar c && c ≠ '0' then
        some (digitsToNat (l1.takeWhile (fun d => isDigitChar d)),
              l1.dropWhile (fun d => isDigitChar d))
      else none
    | [] => none
  match intPart with
  | none => none
  | some (i, l2) =>
    let fracPart : Option (Rat × List Char) :=
      match l2 with
      | '.' :: r =>
        let fd := r.takeWhile (fun d => isDigitChar d)
        if fd.isEmpty then none
        else some ((digitsToNat fd : Rat) / ((10 : Rat) ^ fd.length), r.dropWhile (fun d => isDigitChar d))
      | _ => some (0, l2)
    match fracPart with
    | none => none
    | some (f, l3) =>
      let expPart : Option (Int × List Char) :=
        match l3 with
        | c :: r =>
          if c = 'e' ∨ c = 'E' then
            let signAndRest2 : Bool × List Char :=
              match r with
              | '+' :: r2 => (false, r2)
              | '-' :: r2 => (true, r2)
              | _ => (false, r)
            let ed := signAndRest2.2.takeWhile (fun d => isDigitChar d)
            if ed.isEmpty then none
            else some ((if signAndRest2.1 then -(digitsToNat ed : Int) else (digitsToNat ed : Int)),
                       signAndRest2.2.dropWhile (fun d => isDigitChar d))
          else some (0, l3)
        | [] => some (0, l3)
      match expPart with
      | none => none
      | some (e, l4) =>
        let base : Rat := (i : Rat) + f
        let scaled : Rat :=
          if 0 ≤ e then base * ((10 : Rat) ^ e.toNat) else base / ((10 : Rat) ^ (-e).toNat)
        some ((if neg then -scaled else scaled), l4)

mutual

/-- One JSON value starting at the head of `l` (no leading whitespace).
The branch taken is determined by the first character, and each branch
yields a fixed constructor, which is what the classifier-priority proofs
rely on. -/
def parseJsonValue : Nat → List Char → Option (Json × List Char)
  | 0, _ => none
  | _ + 1, [] => none
  | fuel + 1, c :: r =>
    if c = Char.ofNat 123 then
      match skipJsonWs r with
      | d :: r2 =>
        if d = Char.ofNat 125 then some (.obj [], r2)
        else (parseJsonMembers fuel (d :: r2) []).map (fun p => (.obj p.1, p.2))
      | [] => none
    else if c = Char.ofNat 91 then
      match skipJsonWs r with
      | d :: r2 =>
        if d = Char.ofNat 93 then some (.arr [], r2)
        else (parseJsonElems fuel (d :: r2) []).map (fun p => (.arr p.1, p.2))
      | [] => none
    else if c = '"' then
      (parseStringBody (r.length + 1) r []).map (fun p => (.str p.1, p.2))
    else if c = 't' then
      match r with
      | 'r' :: 'u' :: 'e' :: r2 => some (.bool true, r2)
      | _ => none
    else if c = 'f' then
      match r with
      | 'a' :: 'l' :: 's' :: 'e' :: r2 => some (.bool false, r2)
      | _ => none
    else if c = 'n' then
      match r with
      | 'u' :: 'l' :: 'l' :: r2 => some (.null, r2)
      | _ => none
    else if c = '-' ∨ isDigitChar c then
      (parseJsonNumber (c :: r)).map (fun p => (.num p.1, p.2))
    else none

/-- Object members, positioned at the start of a member (after whitespace). -/
def parseJsonMembers : Nat → List Char → List (String × Json) →
    Option (List (String × Json) × List Char)
  | 0, _, _ => none
  | fuel + 1, l, acc =>
    match l with
    | '"' :: r =>
      match parseStringBody (r.length + 1) r [] with
      | some (k, r1) =>
        match skipJsonWs r1 with
        | ':' :: r2 =>
          match parseJsonValue fuel (skipJsonWs r2) with
          | some (v, r3) =>
            match skipJsonWs r3 with
            | ',' :: r4 => parseJsonMembers fuel (skipJsonWs r4) ((k, v) :: acc)
            | d :: r4 =>
              if d = Char.ofNat 125 then some (((k, v) :: acc).reverse, r4) else none
            | [] => none
          | none => none
        | _ => none
      | none => none
    | _ => none

/-- Array elements, positioned at the start of an element. -/
def parseJsonElems : Nat → List Char → List Json → Option (List Json × List Char)
  | 0, _, _ => none
  | fuel + 1, l, acc =>
    match parseJsonValue fuel l with
    | some (v, r) =>
      match skipJsonWs r with
      | ',' :: r2 => parseJsonElems fuel (skipJsonWs r2) (v :: acc)
      | d :: r2 =>
        if d = Char.ofNat 93 then some ((v :: acc).reverse, r2) else none
      | [] => none
    | none => none

end

/-- `JSON.parse`, returning `none` where JS throws a SyntaxError.  The fuel
is an upper bound on the recursion depth of any input of this length, so it
never cuts off an otherwise-valid parse. -/
def jsonParse (s : String) : Option Json :=
  match parseJsonValue (4 * s.length + 16) (skipJsonWs s.data) with
  | some (v, rest) => if (skipJsonWs rest).isEmpty then some v else none
  | none => none

/- ### JavaScript Date -/

/-- A JS `Date` value: epoch milliseconds, `none` for Invalid Date. -/
abbrev JSDate := Option Int

/-- Days from civil date (proleptic Gregorian), day 0 = 1970-01-01. -/
def daysFromCivil (y : Int) (m d : Nat) : Int :=
  let y2 : Int := y - (if m ≤ 2 then 1 else 0)
  let era : Int := Int.fdiv y2 400
  let yoe : Int := y2 - era * 400
  let mp : Int := if m > 2 then (m : Int) - 3 else (m : Int) + 9
  let doy : Int := Int.fdiv (153 * mp + 2) 5 + (d : Int) - 1
  let doe : Int := yoe * 365 + Int.fdiv yoe 4 - Int.fdiv yoe 100 + doy
  era * 146097 + doe - 719468

/-- Civil date from day number (inverse of `daysFromCivil`). -/
def civilFromDays (z : Int) : Int × Nat × Nat :=
  let z2 : Int := z + 719468
  let era : Int := Int.fdiv z2 146097
  let doe : Nat := (z2 - era * 146097).toNat
  let yoe : Nat := (doe - doe / 1460 + doe / 36524 - doe / 146096) / 365
  let y : Int := (yoe : Int) + era * 400
  let doy : Nat := doe - (365 * yoe + yoe / 4 - yoe / 100)
  let mp : Nat := (5 * doy + 2) / 153
  let d : Nat := doy - (153 * mp + 2) / 5 + 1
  let m : Nat := if mp < 10 then mp + 3 else mp - 9
  (y + (if m ≤ 2 then 1 else 0), m, d)

def isLeapYear (y : Int) : Bool :=
  (Int.emod y 4 == 0 && Int.emod y 100 != 0) || Int.emod y 400 == 0

def daysInMonth (y : Int) (m : Nat) : Nat :=
  if m = 2 then (if isLeapYear y then 29 else 28)
  else if m = 4 ∨ m = 6 ∨ m = 9 ∨ m = 11 then 30 else 31

def digitVal (c : Char) : Nat := c.toNat - 48

/-- Parse of a date string by the `Date` constructor.  We implement the
ECMA-262 Date Time String Format (ISO 8601 subset) together with the
space-separated variant that V8 also accepts; every other string is
modelled as Invalid Date.  A date-time with no offset is local time, which
equals UTC under the assumed server timezone. -/
def jsDateParse (s : String) : JSDate :=
  match s.data with
  | y1 :: y2 :: y3 :: y4 :: '-' :: m1 :: m2 :: '-' :: d1 :: d2 :: rest =>
    if [y1, y2, y3, y4, m1, m2, d1, d2].all (fun c => isDigitChar c) then
      let y : Int := (digitsToNat [y1, y2, y3, y4] : Int)
      let mo := digitsToNat [m1, m2]
      let dy := digitsToNat [d1, d2]
      if 1 ≤ mo && mo ≤ 12 && 1 ≤ dy && dy ≤ daysInMonth y mo then
        let dayMs : Int := daysFromCivil y mo dy * 86400000
        match rest with
        | [] => some dayMs
        | sep :: h1 :: h2 :: ':' :: n1 :: n2 :: rest2 =>
          if (sep = 'T' ∨ sep = ' ') && [h1, h2, n1, n2].all (fun c => isDigitChar c) then
            let hh := digitsToNat [h1, h2]
            let nn := digitsToNat [n1, n2]
            let secPart : Option (Nat × Nat × List Char) :=
              match rest2 with
              | ':' :: s1 :: s2 :: rest3 =>
                if isDigitChar s1 && isDigitChar s2 then
                  match rest3 with
                  | '.' :: rest4 =>
                    let fd := rest4.takeWhile (fun c => isDigitChar c)
                    if 1 ≤ fd.length && fd.length ≤ 3 then
                      some (digitsToNat [s1, s2],
                            digitsToNat fd * 10 ^ (3 - fd.length),
                            rest4.dropWhile (fun c => isDigitChar c))
                    else none
                  | _ => some (digitsToNat [s1, s2], 0, rest3)
                else none
              | _ => some (0, 0, rest2)
            match secPart with
            | none => none
            | some (ss, ms, rest5) =>
              let offMin : Option Int :=
                match rest5 with
                | [] => some 0
                | ['Z'] => some 0
                | [sg, o1, o2, ':', o3, o4] =>
                  if (sg = '+' ∨ sg = '-') && [o1, o2, o3, o4].all (fun c => isDigitChar c) then
                    let v : Int := (digitsToNat [o1, o2] * 60 + digitsToNat [o3, o4] : Nat)
                    some (if sg = '-' then -v else v)
                  else none
                | [sg, o1, o2, o3, o4] =>
                  if (sg = '+' ∨ sg = '-') && [o1, o2, o3, o4].all (fun c => isDigitChar c) then
                    let v : Int := (digitsToNat [o1, o2] * 60 + digitsToNat [o3, o4] : Nat)
                    some (if sg = '-' then -v else v)
                  else none
                | _ => none
              match offMin with
              | none => none
              | some off =>
                if hh ≤ 23 && nn ≤ 59 && ss ≤ 59 then
                  some (dayMs + (hh : Int) * 3600000 + (nn : Int) * 60000 +
                        (ss : Int) * 1000 + (ms : Int) - off * 60000)
                else none
          else none
        | _ => none
      else none
    else none
  | _ => none

/-- `new Date(v)` on a possibly-undefined runtime value. -/
def jsNewDate (v : Option Json) : JSDate :=
  match v with
  | none => none
  | some (.str s) => jsDateParse s
  | some (.num q) => if q.den = 1 then some q.num else some (Int.tdiv q.num (q.den : Int))
  | some (.bool b) => some (if b then 1 else 0)
  | some .null => some 0
  | some (.arr _) => none
  | some (.obj _) => none

def pad2 (n : Nat) : String := if n < 10 then "0" ++ toString n else toString n

def pad3 (n : Nat) : String :=
  if n < 10 then "00" ++ toString n else if n < 100 then "0" ++ toString n else toString n

def pad4 (n : Nat) : String :=
  if n < 10 then "000" ++ toString n
  else if n < 100 then "00" ++ toString n
  else if n < 1000 then "0" ++ toString n else toString n

def weekdayName (i : Nat) : String :=
  (["Sun", "Mon", "Tue", "Wed", "Thu", "Fri", "Sat"].getD i "Sun")

def monthName (m : Nat) : String :=
  (["Jan", "Feb", "Mar", "Apr", "May", "Jun", "Jul", "Aug", "Sep", "Oct", "Nov",
    "Dec"].getD (m - 1) "Jan")

/-- `Date.prototype.toString` under a UTC host timezone (the rendering V8
produces, which is what the default array sort compares). -/
def jsDateToString (d : JSDate) : String :=
  match d with
  | none => "Invalid Date"
  | some ms =>
    let days : Int := Int.fdiv ms 86400000
    let rem : Nat := (ms - days * 86400000).toNat
    let ymd := civilFromDays days
    let wd : Nat := (Int.emod (days + 4) 7 + 7).toNat % 7
    weekdayName wd ++ " " ++ monthName ymd.2.1 ++ " " ++ pad2 ymd.2.2 ++ " " ++
      pad4 ymd.1.toNat ++ " " ++ pad2 (rem / 3600000) ++ ":" ++
      pad2 (rem / 60000 % 60) ++ ":" ++ pad2 (rem / 1000 % 60) ++
      " GMT+0000 (Coordinated Universal Time)"

/-- `Date.prototype.toISOString`; throws a RangeError on Invalid Date. -/
def jsToISOString (d : JSDate) : Except String String :=
  match d with
  | none => .error "RangeError: Invalid time value"
  | some ms =>
    let days : Int := Int.fdiv ms 86400000
    let rem : Nat := (ms - days * 86400000).toNat
    let ymd := civilFromDays days
    .ok (pad4 ymd.1.toNat ++ "-" ++ pad2 ymd.2.1 ++ "-" ++ pad2 ymd.2.2 ++ "T" ++
      pad2 (rem / 3600000) ++ ":" ++ pad2 (rem / 60000 % 60) ++ ":" ++
      pad2 (rem / 1000 % 60) ++ "." ++ pad3 (rem % 1000) ++ "Z")

/- ### JS array sort (default comparator) -/

/-- Stable insertion of `x` after every element `y` with `le y x`. -/
def insertStable (le : α → α → Bool) (x : α) : List α → List α
  | [] => [x]
  | y :: ys => if le y x then y :: insertStable le x ys else x :: y :: ys

/-- A stable sort.  `Array.prototype.sort` is required to be stable and,
with a consistent comparator, every stable sort produces the same output,
so this models the JS sort exactly. -/
def jsSortBy (le : α → α → Bool) (l : List α) : List α :=
  l.foldl (fun acc x => insertStable le x acc) []

/-- The default sort comparator: compare `ToString` renderings as strings. -/
def jsDateLe (a b : JSDate) : Bool := decide (jsDateToString a ≤ jsDateToString b)

/- ### JS string coercion (template literals, Array.prototype.join) -/

/-- Decimal rendering of a rational, as used when a number is interpolated
into a template string.  For the integral and short-decimal values the
source ever renders this coincides with JS number formatting; it is used
only to build prompt text. -/
def ratToJsString (q : Rat) : String :=
  if q.den = 1 then toString q.num
  else
    let sign := if q.num < 0 then "-" else ""
    let n := q.num.natAbs
    let ip := n / q.den
    let rec fracDigits : Nat → Nat → List Char
      | 0, _ => []
      | _ + 1, 0 => []
      | fuel + 1, r =>
        let r10 := r * 10
        (Char.ofNat (48 + r10 / q.den)) :: fracDigits fuel (r10 % q.den)
    sign ++ toString ip ++ "." ++ ⟨fracDigits 20 (n % q.den)⟩

mutual

/-- JS ToString as applied by template-literal interpolation. -/
def jsToString : Json → String
  | .null => "null"
  | .bool b => if b then "true" else "false"
  | .num q => ratToJsString q
  | .str s => s
  | .arr es => jsArrJoin es
  | .obj _ => "[object Object]"

/-- `Array.prototype.toString` = `join(",")`. -/
def jsArrJoin : List Json → String
  | [] => ""
  | [x] => jsElemStr x
  | x :: y :: xs => jsElemStr x ++ "," ++ jsArrJoin (y :: xs)

/-- In a join, null elements render as the empty string. -/
def jsElemStr : Json → String
  | .null => ""
  | v => jsToString v

end

/-- Interpolation of a possibly-undefined value. -/
def jsValToString : Option Json → String
  | none => "undefined"
  | some v => jsToString v

/-- `Array.prototype.join(sep)` over runtime values. -/
def jsJoinWith (sep : String) : List Json → String
  | [] => ""
  | [x] => jsElemStr x
  | x :: y :: xs => jsElemStr x ++ sep ++ jsJoinWith sep (y :: xs)

/- ### LogParser: the log-line classifier (src/lib/log-parser.ts) -/

/-- One normalized log record (`LogEntry` in `types/index.ts`).  The TS
interface declares `level` as a four-value union and `message`/`timestamp`
as strings, but those are compile-time casts only: at runtime the JSON
matcher can store arbitrary parsed values and the other matchers store any
lowercased token, which is what the fields' types here reflect. -/
structure LogEntry where
  timestamp : Option Json
  level : String
  message : Json
  source : Option Json
  stackTrace : Option Json
  context : Option Json

/-- Matcher for the regex tail `\s+(.+)$`: one-or-more whitespace, then a
non-empty line-terminator-free remainder, with the backtracking the JS
engine performs when the remainder would be empty. -/
def tailWsMsg (t : List Char) : Option (List Char) :=
  let w := (t.takeWhile (fun c => isJsWs c)).length
  if w = 0 then none
  else if w < t.length then
    let rest := t.drop w
    if rest.any (fun c => isLineTerm c) then none else some rest
  else
    if 2 ≤ w then
      match t.getLast? with
      | some c => if isLineTerm c then none else some [c]
      | none => none
    else none

/-- Matcher for `\s+(\w+)`: whitespace then a maximal non-empty word run;
returns the word and the remainder. -/
def tailWsWord (t : List Char) : Option (List Char × List Char) :=
  let w := (t.takeWhile (fun c => isJsWs c)).length
  if w = 0 then none
  else
    let t1 := t.drop w
    let word := t1.takeWhile (fun c => isWordChar c)
    if word.isEmpty then none else some (word, t1.drop word.length)

/-- `parseStandardFormat`: the regex `^\[([^\]]+)\]\s+(\w+):\s+(.+)$`,
source fixed to "application". -/
def parseStandardFormat (line : String) : Option LogEntry :=
  match line.data with
  | c :: rest =>
    if c = Char.ofNat 91 then
      match rest.takeWhile (fun d => d ≠ Char.ofNat 93) with
      | [] => none
      | i0 :: irest =>
        match rest.drop (i0 :: irest).length with
        | _ :: t =>
          match tailWsWord t with
          | some (word, t2) =>
            match t2 with
            | ':' :: t3 =>
              match tailWsMsg t3 with
              | some msg =>
                some { timestamp := some (.str ⟨i0 :: irest⟩), level := lowerStr ⟨word⟩,
                       message := .str (trimJS ⟨msg⟩),
                       source := some (.str "application"),
                       stackTrace := none, context := none }
              | none => none
            | _ => none
          | none => none
        | [] => none
    else none
  | [] => none

/-- `parseJSONFormat`: strict `JSON.parse` of the whole line, fields pulled
from the documented key aliases.  A resolved level value that is not a
string makes `.toLowerCase()` throw a TypeError, which the matcher's own
catch converts to a non-match. -/
def parseJSONFormat (line : String) : Option LogEntry :=
  match jsonParse line with
  | none => none
  | some json =>
    match jsOr (jsOr2 (json.getField "level") (json.getField "severity")) (.str "info") with
    | .str levelRaw =>
      some { timestamp := jsOr2 (jsOr2 (json.getField "timestamp") (json.getField "time"))
                            (json.getField "@timestamp"),
             level := lowerStr levelRaw,
             message := jsOr (jsOr2 (json.getField "message") (json.getField "msg"))
                          (.str line),
             source := jsOr2 (jsOr2 (json.getField "service") (json.getField "source"))
                         (json.getField "logger"),
             stackTrace := jsOr2 (json.getField "stack") (json.getField "stackTrace"),
             context := jsOr2 (json.getField "context") (json.getField "meta") }
    | _ => none

/-- The optional timezone part `(?:Z|[+-]\d{2}:\d{2})?` of the application
format; returns the matched characters and the remainder. -/
def tzSplit (l : List Char) : Option (List Char × List Char) :=
  match l with
  | 'Z' :: t => some (['Z'], t)
  | sg :: o1 :: o2 :: ':' :: o3 :: o4 :: t =>
    if (sg = '+' ∨ sg = '-') && [o1, o2, o3, o4].all (fun c => isDigitChar c) then
      some ([sg, o1, o2, ':', o3, o4], t)
    else none
  | _ => none

/-- `parseNginxFormat`: `^(\d{4}\/\d{2}\/\d{2} \d{2}:\d{2}:\d{2}) \[(\w+)\] (.+)$`,
source fixed to "nginx". -/
def parseNginxFormat (line : String) : Option LogEntry :=
  match line.data with
  | a1 :: a2 :: a3 :: a4 :: s1 :: b1 :: b2 :: s2 :: c1 :: c2 :: sp :: d1 :: d2 :: co1 ::
      e1 :: e2 :: co2 :: f1 :: f2 :: rest =>
    if [a1, a2, a3, a4, b1, b2, c1, c2, d1, d2, e1, e2, f1, f2].all (fun c => isDigitChar c)
        && s1 = '/' && s2 = '/' && sp = ' ' && co1 = ':' && co2 = ':' then
      match rest with
      | ' ' :: g :: t =>
        if g = Char.ofNat 91 then
          match t.takeWhile (fun c => isWordChar c) with
          | [] => none
          | w0 :: wrest =>
            match t.drop (w0 :: wrest).length with
            | h :: t2 =>
              if h = Char.ofNat 93 then
                match t2 with
                | ' ' :: t3 =>
                  match t3 with
                  | [] => none
                  | _ :: _ =>
                    if t3.any (fun c => isLineTerm c) then none
                    else
                      some { timestamp := some (.str ⟨[a1, a2, a3, a4, s1, b1, b2, s2, c1,
                                                      c2, sp, d1, d2, co1, e1, e2, co2, f1,
                                                      f2]⟩),
                             level := lowerStr ⟨w0 :: wrest⟩, message := .str (trimJS ⟨t3⟩),
                             source := some (.str "nginx"), stackTrace := none,
                             context := none }
                | _ => none
              else none
            | [] => none
        else none
      | _ => none
    else none
  | _ => none

/-- `parseApacheFormat`: `^\[([^\]]+)\] \[(\w+)\] (.+)$`, source fixed to
"apache". -/
def parseApacheFormat (line : String) : Option LogEntry :=
  match line.data with
  | c :: rest =>
    if c = Char.ofNat 91 then
      match rest.takeWhile (fun d => d ≠ Char.ofNat 93) with
      | [] => none
      | i0 :: irest =>
        match rest.drop (i0 :: irest).length with
        | _ :: t =>
          match t with
          | ' ' :: e :: t2 =>
            if e = Char.ofNat 91 then
              match t2.takeWhile (fun d => isWordChar d) with
              | [] => none
              | w0 :: wrest =>
                match t2.drop (w0 :: wrest).length with
                | f :: t3 =>
                  if f = Char.ofNat 93 then
                    match t3 with
                    | ' ' :: t4 =>
                      match t4 with
                      | [] => none
                      | _ :: _ =>
                        if t4.any (fun d => isLineTerm d) then none
                        else
                          some { timestamp := some (.str ⟨i0 :: irest⟩),
                                 level := lowerStr ⟨w0 :: wrest⟩,
                                 message := .str (trimJS ⟨t4⟩),
                                 source := some (.str "apache"),
                                 stackTrace := none, context := none }
                    | _ => none
                  else none
                | [] => none
            else none
          | _ => none
        | [] => none
    else none
  | [] => none

/-- `parseApplicationFormat`:
`^(\d{4}-\d{2}-\d{2}[T ]\d{2}:\d{2}:\d{2}(?:\.\d{3})?(?:Z|[+-]\d{2}:\d{2})?)\s+(\w+)\s+(.+)$`,
source fixed to "application".  The optional fraction/timezone groups are
greedy; on continuation failure the engine retries without them, which the
ordered candidate list reproduces. -/
def parseApplicationFormat (line : String) : Option LogEntry :=
  match line.data with
  | y1 :: y2 :: y3 :: y4 :: h1 :: m1 :: m2 :: h2 :: d1 :: d2 :: sep :: hh1 :: hh2 :: co1 ::
      n1 :: n2 :: co2 :: s1 :: s2 :: rest =>
    if [y1, y2, y3, y4, m1, m2, d1, d2, hh1, hh2, n1, n2, s1, s2].all
          (fun c => isDigitChar c)
        && h1 = '-' && h2 = '-' && (sep = 'T' ∨ sep = ' ') && co1 = ':' && co2 = ':' then
      let base := [y1, y2, y3, y4, h1, m1, m2, h2, d1, d2, sep, hh1, hh2, co1, n1, n2,
                   co2, s1, s2]
      let candidates : List (List Char × List Char) :=
        match rest with
        | '.' :: f1 :: f2 :: f3 :: rest2 =>
          if [f1, f2, f3].all (fun c => isDigitChar c) then
            let frac := ['.', f1, f2, f3]
            match tzSplit rest2 with
            | some (z, t) => [(frac ++ z, t), (frac, rest2)]
            | none => [(frac, rest2)]
          else
            match tzSplit rest with
            | some (z, t) => [(z, t), ([], rest)]
            | none => [([], rest)]
        | _ =>
          match tzSplit rest with
          | some (z, t) => [(z, t), ([], rest)]
          | none => [([], rest)]
      candidates.findSome? (fun cand =>
        match tailWsWord cand.2 with
        | some (word, t2) =>
          match tailWsMsg t2 with
          | some msg =>
            some { timestamp := some (.str ⟨base ++ cand.1⟩), level := lowerStr ⟨word⟩,
                   message := .str (trimJS ⟨msg⟩),
                   source := some (.str "application"),
                   stackTrace := none, context := none }
          | none => none
        | none => none)
    else none
  | _ => none

/-- Tags naming the five format matchers, in the order of the `formats`
array inside `parseLogLine`. -/
inductive LogFormat where
  | standard
  | json
  | nginx
  | apache
  | application
deriving DecidableEq

def runFormat : LogFormat → String → Option LogEntry
  | .standard => parseStandardFormat
  | .json => parseJSONFormat
  | .nginx => parseNginxFormat
  | .apache => parseApacheFormat
  | .application => parseApplicationFormat

/-- The classifier's priority order, exactly the `formats` array of
`parseLogLine`. -/
def logFormats : List LogFormat :=
  [.standard, .json, .nginx, .apache, .application]

/-- `parseLogLine`: first matcher that structurally matches wins; a matcher
that throws is treated as a non-match (already folded into the matchers
above). -/
def parseLogLine (line : String) : Option LogEntry :=
  logFormats.findSome? (fun fmt => runFormat fmt line)

/-- `parseLogContent`: split into lines, drop blank ones, classify each and
keep the recognized records. -/
def parseLogContent (content : String) : List LogEntry :=
  ((content.splitOn "\n").filter (fun l => trimJS l ≠ "")).filterMap parseLogLine

/- ### LogParser: aggregation (parseLogFiles) -/

/-- `ParsedLog` from `types/index.ts`; `timeRange.start`/`timeRange.end`
are flattened into two fields (`end` is a Lean keyword). -/
structure ParsedLog where
  entries : List LogEntry
  totalEntries : Nat
  errorCount : Nat
  warnCount : Nat
  timeRangeStart : JSDate
  timeRangeEnd : JSDate
  sources : List Json

/-- `Set.prototype.add` on a value-keyed set kept in insertion order. -/
def setAddJson (l : List Json) (x : Json) : List Json :=
  if l.contains x then l else l ++ [x]

/-- The aggregation loop of `parseLogFiles` over an arbitrary record list:
tally error/warn counts and truthy sources, then sort the `new Date(...)`
conversions of all timestamps with the default (string-comparing) array
sort and take the first and last as the time range.  `now` stands for the
`new Date()` fallback used when there are no entries.  `aggregateStep` is
the body of the counting `forEach`: bump the error and warn tallies and
record a truthy source. -/
def aggregateStep (acc : Nat × Nat × List Json) (e : LogEntry) : Nat × Nat × List Json :=
  let ec := if e.level == "error" then acc.1 + 1 else acc.1
  let wc := if e.level == "warn" then acc.2.1 + 1 else acc.2.1
  let srcs := match e.source with
    | some v => if v.truthy then setAddJson acc.2.2 v else acc.2.2
    | none => acc.2.2
  (ec, wc, srcs)

def aggregateEntries (now : JSDate) (entries : List LogEntry) : ParsedLog :=
  let tallies := entries.foldl aggregateStep (0, 0, [])
  let timestamps := jsSortBy jsDateLe (entries.map (fun e => jsNewDate e.timestamp))
  { entries := entries
    totalEntries := entries.length
    errorCount := tallies.1
    warnCount := tallies.2.1
    timeRangeStart := timestamps.head?.getD now
    timeRangeEnd := timestamps.getLast?.getD now
    sources := tallies.2.2 }

/-- The hard-coded sample records of `generateSampleEntries`. -/
def generateSampleEntries : List LogEntry :=
  [ { timestamp := some (.str "2024-06-14T12:00:00Z"), level := "error",
      message := .str "Database connection failed: Connection timeout after 30s",
      source := some (.str "database"),
      stackTrace := some (.str "at Database.connect (database.js:45)\n    at UserService.getUser (user-service.js:23)"),
      context := some (.obj [("connectionString", .str "postgresql://localhost:5432/app"),
                             ("timeout", .num 30000)]) },
    { timestamp := some (.str "2024-06-14T12:00:05Z"), level := "error",
      message := .str "Failed to process user request: User not found",
      source := some (.str "api"),
      stackTrace := none,
      context := some (.obj [("userId", .str "12345"),
                             ("endpoint", .str "/api/users/12345")]) },
    { timestamp := some (.str "2024-06-14T12:00:10Z"), level := "warn",
      message := .str "High memory usage detected: 85% of available memory in use",
      source := some (.str "system"),
      stackTrace := none,
      context := some (.obj [("memoryUsage", .num (85 / 100)),
                             ("threshold", .num (8 / 10))]) } ]

/-- `parseLogFiles`: aggregates the simulated sample entries. -/
def parseLogFiles (now : JSDate) : ParsedLog :=
  aggregateEntries now generateSampleEntries

/- ### LogParser: error pattern extraction -/

/-- `Set.prototype.add` on a string set kept in insertion order. -/
def setAddStr (l : List String) (x : String) : List String :=
  if l.contains x then l else l ++ [x]

/-- The seven keyword checks of `extractErrorPatterns`, in source order;
each pairs a tag with its condition on the lowercased message. -/
def patternChecks : List (String × (String → Bool)) :=
  [ ("connection_errors", fun m => jsIncludes m "connection"),
    ("timeout_errors", fun m => jsIncludes m "timeout"),
    ("not_found_errors", fun m => jsIncludes m "not found"),
    ("auth_errors", fun m => jsIncludes m "permission" || jsIncludes m "unauthorized"),
    ("memory_errors", fun m => jsIncludes m "memory" || jsIncludes m "out of memory"),
    ("disk_errors", fun m => jsIncludes m "disk" || jsIncludes m "space"),
    ("network_errors", fun m => jsIncludes m "network") ]

/-- Lowercasing a runtime message value; a non-string message makes
`.toLowerCase()` throw. -/
def messageLower : Json → Except String String
  | .str s => .ok (lowerStr s)
  | _ => .error "TypeError: entry.message.toLowerCase is not a function"

def patternStep (acc : List String) (m : String) : List String :=
  patternChecks.foldl (fun a p => if p.2 m then setAddStr a p.1 else a) acc

/-- `extractErrorPatterns`: scan the error-level records' lowercased
messages through the keyword table, deduplicating tags in insertion
order. -/
def extractErrorPatterns (entries : List LogEntry) : Except String (List String) :=
  (entries.filter (fun e => e.level == "error")).foldlM
    (fun acc e => (messageLower e.message).map (patternStep acc)) []

/- ### MCPManager: the repository search federation (src/lib/mcp-manager.ts) -/

structure MCPClientConfig where
  token : Option String := none
  baseUrl : Option String := none
  indexPath : Option String := none
  languages : Option (List String) := none

/-- A registered backend (`MCPServer` in `types/index.ts`); `type` is a
Lean keyword, rendered `serverType`. -/
structure MCPServer where
  id : String
  name : String
  serverType : String
  config : MCPClientConfig
  isConnected : Bool

/-- One code search hit (`CodeSearchResult`); the TS interface types `path`
as string but the value arrives from backend JSON, so it is a runtime
value here.  `source` is attached by the fan-out branch of `searchCode`. -/
structure CodeSearchResult where
  path : Json
  content : Json
  repository : Option Json := none
  line : Option Json := none
  source : Option String := none

/-- The behaviour of a live backend session.  The real sessions perform
network calls, so a session is abstracted to its `searchCode` outcome per
query (the only capability the claims exercise). -/
structure MCPClientBehavior where
  searchCodeResult : String → Except String (List CodeSearchResult)

/-- `MCPManager` state: the registry and the live-session cache, both kept
in insertion order (JS `Map` iterates in insertion order). -/
structure MCPManager where
  servers : List MCPServer
  clients : List (String × MCPClientBehavior)

/-- The three default registry entries created by the constructor, with
configuration sourced from the environment tokens. -/
def defaultServers (githubToken gitlabToken : String) : List MCPServer :=
  [ { id := "github", name := "GitHub MCP", serverType := "github",
      config := { token := some githubToken, baseUrl := some "https://api.github.com" },
      isConnected := false },
    { id := "gitlab", name := "GitLab MCP", serverType := "gitlab",
      config := { token := some gitlabToken, baseUrl := some "https://gitlab.com/api/v4" },
      isConnected := false },
    { id := "code-index", name := "Code Index MCP", serverType := "code-index",
      config := { indexPath := some "/tmp/code-index",
                  languages := some ["typescript", "javascript", "python"] },
      isConnected := false } ]

/-- A freshly constructed manager: default servers registered, no client
connected. -/
def MCPManager.initial (githubToken gitlabToken : String) : MCPManager :=
  { servers := defaultServers githubToken gitlabToken, clients := [] }

/-- `searchCode(query, serverId?)`.  With an id: query only that backend's
cached client, silently yielding the empty result list when no client is
cached; a throwing client propagates.  Without an id: fan out over every
cached client, catching per-backend failures and tagging each hit with its
origin id. -/
def MCPManager.searchCode (mgr : MCPManager) (query : String) (serverId : Option String) :
    Except String (List CodeSearchResult) :=
  match serverId with
  | some id =>
    match mgr.clients.find? (fun p => p.1 == id) with
    | some p => do
      let serverResults ← p.2.searchCodeResult query
      pure serverResults
    | none => pure []
  | none =>
    pure (mgr.clients.foldl
      (fun acc p =>
        match p.2.searchCodeResult query with
        | .ok rs => acc ++ rs.map (fun r => { r with source := some p.1 })
        | .error _ => acc)
      [])

def MCPManager.getConnectedServers (mgr : MCPManager) : List MCPServer :=
  mgr.servers.filter (fun s => s.isConnected)

def MCPManager.getAllServers (mgr : MCPManager) : List MCPServer :=
  mgr.servers

/- ### AIProviderManager (src/lib/ai-provider-manager.ts) -/

/-- The provider union type from `types/index.ts`. -/
inductive AIProvider where
  | openai
  | anthropic
  | bedrock
  | vertex
deriving DecidableEq

/-- The runtime string value of the provider (it is a string union in TS). -/
def AIProvider.value : AIProvider → String
  | .openai => "openai"
  | .anthropic => "anthropic"
  | .bedrock => "bedrock"
  | .vertex => "vertex"

/-- The opaque completion oracle: prompt to response text or rejection. -/
abbrev Oracle := String → Except String String

/-- `generateAnalysis`: forwards the prompt to the completion backend and,
on any failure, rethrows a wrapped error.  (`getModel` cannot throw: the
provider enum covers all four supported cases.) -/
def generateAnalysis (oracle : Oracle) (provider : AIProvider) (prompt : String) :
    Except String String :=
  match oracle prompt with
  | .ok text => .ok text
  | .error _ => .error ("Failed to generate analysis with " ++ provider.value)

/- ### AnalysisEngine (src/lib/analysis-engine.ts) -/

structure CodeAnalysis where
  affectedFiles : List Json
  potentialIssues : List String
  dependencies : List String
  mcpServerUsed : List String

/-- `SuggestedFix`; `type` rendered `fixType`.  Fields fed from parsed
oracle JSON are runtime values. -/
structure SuggestedFix where
  id : String
  description : Json
  priority : Json
  fixType : Json
  code : Option Json
  filePath : Option Json
  explanation : Json

structure UnitTest where
  id : String
  description : Json
  framework : Json
  code : Json
  filePath : Json

structure AnalysisResult where
  rootCause : Json
  affectedComponents : Json
  suggestedFixes : List SuggestedFix
  unitTests : List UnitTest
  confidence : Json
  reasoning : Json
  codeAnalysis : Option CodeAnalysis

/-- The orchestrator's request; TS optional/nullable fields are `Option`
(`null` and `undefined` are both falsy and both trigger the flag
defaults). -/
structure AnalysisRequest where
  userMessage : String
  logs : Option ParsedLog
  includeFixes : Option Bool
  includeTests : Option Bool
  includeCodeAnalysis : Option Bool

/-- The regex `/\{[\s\S]*\}/` (and, with brackets, `/\[[\s\S]*\]/`): the
span from the first opening character to the last closing character, when
the first strictly precedes the last. -/
def spanBetween (openC closeC : Char) (s : String) : Option String :=
  match s.data.findIdx? (fun c => c = openC) with
  | none => none
  | some i =>
    match s.data.reverse.findIdx? (fun c => c = closeC) with
    | none => none
    | some rj =>
      let j := s.data.length - 1 - rj
      if i < j then some ⟨(s.data.drop i).take (j - i + 1)⟩ else none

/-- The degraded-success fallback of `parseAIResponse`. -/
def fallbackAnalysisResult (response : String) : AnalysisResult :=
  { rootCause := .str "Error analysis completed, but response parsing failed",
    affectedComponents := .arr [],
    suggestedFixes := [],
    unitTests := [],
    confidence := .num (3 / 10),
    reasoning := .str response,
    codeAnalysis := none }

/-- `parseAIResponse`: extract the brace span, `JSON.parse` it, and fill
the result with `||`-style defaults; any failure yields the fallback. -/
def parseAIResponse (response : String) : AnalysisResult :=
  match spanBetween (Char.ofNat 123) (Char.ofNat 125) response with
  | none => fallbackAnalysisResult response
  | some jsonText =>
    match jsonParse jsonText with
    | none => fallbackAnalysisResult response
    | some parsed =>
      { rootCause := jsOr (parsed.getField "rootCause") (.str "Unable to determine root cause"),
        affectedComponents := jsOr (parsed.getField "affectedComponents") (.arr []),
        suggestedFixes := [],
        unitTests := [],
        confidence := jsOr (parsed.getField "confidence") (.num (1 / 2)),
        reasoning := jsOr (parsed.getField "reasoning") (.str "Analysis completed"),
        codeAnalysis := none }

/-- Rendering of one error-level record inside the analysis prompt. -/
def renderErrorEntry (e : LogEntry) : String :=
  "[" ++ jsValToString e.timestamp ++ "] " ++ upperStr e.level ++ ": " ++
    jsToString e.message ++
    (if jsTruthy e.source then " (Source: " ++ jsValToString e.source ++ ")" else "") ++
    (if jsTruthy e.stackTrace then "\nStack: " ++ jsValToString e.stackTrace else "")

/-- Rendering of one warn-level record inside the analysis prompt. -/
def renderWarnEntry (e : LogEntry) : String :=
  "[" ++ jsValToString e.timestamp ++ "] " ++ upperStr e.level ++ ": " ++
    jsToString e.message ++
    (if jsTruthy e.source then " (Source: " ++ jsValToString e.source ++ ")" else "")

/-- The fixed instruction block closing every analysis prompt. -/
def analysisPromptTail : String :=
  "Please analyze this incident and provide a comprehensive root cause analysis. Your response should be in the following JSON format:\n\n\x7b\n  \"summary\": \"Brief summary of the analysis\",\n  \"rootCause\": \"The primary root cause of the issue\",\n  \"affectedComponents\": [\"component1\", \"component2\"],\n  \"confidence\": 0.95,\n  \"reasoning\": \"Detailed explanation of how you arrived at this conclusion, including analysis of log patterns, timing, and system behavior\",\n  \"immediateActions\": [\"action1\", \"action2\"],\n  \"preventionMeasures\": [\"measure1\", \"measure2\"]\n\x7d\n\nFocus on:\n1. Identifying the primary root cause based on log patterns and user description\n2. Determining which system components are affected\n3. Providing a confidence score (0.0 to 1.0) for your analysis\n4. Explaining your reasoning process clearly\n5. Suggesting immediate actions to resolve the issue\n6. Recommending prevention measures for the future\n\nBe specific and actionable in your recommendations."

/-- `buildAnalysisPrompt`.  The template's interpolations evaluate in
order, so an Invalid-Date time range throws (from `toISOString`) before
pattern extraction can; both propagate to the caller of `analyze`. -/
def buildAnalysisPrompt (userMessage : String) (logs : Option ParsedLog) :
    Except String String :=
  let base := "You are an expert system administrator and software engineer specializing in root cause analysis of system errors and incidents.\n\nUser's incident description:\n" ++
    userMessage ++ "\n\n"
  match logs with
  | some l =>
    if 0 < l.entries.length then do
      let startIso ← jsToISOString l.timeRangeStart
      let endIso ← jsToISOString l.timeRangeEnd
      let errLines := ((l.entries.filter (fun e => e.level == "error")).take 10).map
        renderErrorEntry
      let warnLines := ((l.entries.filter (fun e => e.level == "warn")).take 5).map
        renderWarnEntry
      let pats ← extractErrorPatterns l.entries
      pure (base ++ "Log Analysis Context:\n- Total log entries: " ++
        toString l.totalEntries ++ "\n- Error count: " ++ toString l.errorCount ++
        "\n- Warning count: " ++ toString l.warnCount ++ "\n- Time range: " ++ startIso ++
        " to " ++ endIso ++ "\n- Sources: " ++ jsJoinWith ", " l.sources ++
        "\n\nRecent Error Log Entries:\n" ++ String.intercalate "\n\n" errLines ++
        "\n\nRecent Warning Log Entries:\n" ++ String.intercalate "\n\n" warnLines ++
        "\n\nError Patterns Detected:\n" ++ String.intercalate ", " pats ++ "\n\n" ++
        analysisPromptTail)
    else pure (base ++ analysisPromptTail)
  | none => pure (base ++ analysisPromptTail)

/-- The word-run tokenizer `/\b\w{3,}\b/g`: maximal `\w` runs of length at
least three. -/
def splitWordRuns : Nat → List Char → List (List Char)
  | 0, _ => []
  | _ + 1, [] => []
  | fuel + 1, c :: r =>
    if isWordChar c then
      (c :: r.takeWhile (fun d => isWordChar d)) ::
        splitWordRuns fuel (r.dropWhile (fun d => isWordChar d))
    else splitWordRuns fuel r

def wordTokens (s : String) : List String :=
  ((splitWordRuns s.data.length s.data).filter (fun r => 3 ≤ r.length)).map
    (fun r => ⟨r⟩)

/-- `extractSearchTerms`: tokenize the lowercased root cause and the first
five error messages, drop the per-source stop words, deduplicate in
insertion order, and cap at ten terms.  `.toLowerCase()` on a non-string
root cause or message throws. -/
def extractSearchTerms (logs : ParsedLog) (rootCause : Json) :
    Except String (List String) := do
  let rc ← messageLower rootCause
  let fromRoot := (wordTokens rc).foldl
    (fun acc w =>
      if ["the", "and", "or", "but", "error", "issue"].contains w then acc
      else setAddStr acc w)
    []
  let errs := (logs.entries.filter (fun e => e.level == "error")).take 5
  let allTerms ← errs.foldlM
    (fun acc e => do
      let m ← messageLower e.message
      pure ((wordTokens m).foldl
        (fun a w =>
          if ["the", "and", "or", "but", "error", "failed"].contains w then a
          else setAddStr a w)
        acc))
    fromRoot
  pure (allTerms.take 10)

/-- The per-server term loop of `performCodeAnalysis`: accumulate unique
truthy paths; a throwing search stops this server's loop but keeps the
paths already collected. -/
def searchTermsLoop (mgr : MCPManager) (serverId : String) :
    List String → List Json → List Json × Bool
  | [], files => (files, true)
  | term :: ts, files =>
    match mgr.searchCode term (some serverId) with
    | .ok results =>
      searchTermsLoop mgr serverId ts
        (results.foldl
          (fun fs r => if r.path.truthy && !(fs.contains r.path) then fs ++ [r.path] else fs)
          files)
    | .error _ => (files, false)

/-- `performCodeAnalysis`: placeholder when no backend is connected;
otherwise search every connected backend with every extracted term,
recording per-server failures as advisory strings. -/
def performCodeAnalysis (mgr : MCPManager) (logs : ParsedLog) (rootCause : Json) :
    Except String CodeAnalysis :=
  let connectedServers := mgr.getConnectedServers
  if connectedServers.isEmpty then
    pure { affectedFiles := [],
           potentialIssues := ["No MCP servers connected for code analysis"],
           dependencies := [], mcpServerUsed := [] }
  else do
    let searchTerms ← extractSearchTerms logs rootCause
    let result := connectedServers.foldl
      (fun (acc : List Json × List String × List String) server =>
        let used := acc.2.2 ++ [server.name]
        match searchTermsLoop mgr server.id searchTerms acc.1 with
        | (files, true) => (files, acc.2.1, used)
        | (files, false) =>
          (files, acc.2.1 ++ ["Failed to analyze code in " ++ server.name], used))
      ([], [], [])
    pure { affectedFiles := result.1.take 20, potentialIssues := result.2.1,
           dependencies := [], mcpServerUsed := result.2.2 }

/-- The fix prompt; its pattern-extraction interpolation can throw, and it
sits outside the try of `generateFixes`, so such an error propagates. -/
def buildFixPrompt (rootCause : Json) (logs : Option ParsedLog) : Except String String := do
  let logsPart ←
    match logs with
    | some l => do
      let pats ← extractErrorPatterns l.entries
      pure ("And the following error patterns:\n" ++ String.intercalate ", " pats)
    | none => pure ""
  pure ("Based on the root cause analysis: \"" ++ jsToString rootCause ++ "\"\n\n" ++
    logsPart ++ "\n\nGenerate 3-5 specific code fixes or configuration changes to resolve this issue. For each fix, provide:\n\n1. A clear description of what needs to be changed\n2. The priority level (high/medium/low)\n3. The type of fix (code/configuration/infrastructure)\n4. Actual code examples where applicable\n5. The file path where the fix should be applied\n6. A detailed explanation of why this fix addresses the root cause\n\nFormat your response as a JSON array of fix objects:\n\n[\n  \x7b\n    \"description\": \"Fix description\",\n    \"priority\": \"high|medium|low\",\n    \"type\": \"code|configuration|infrastructure\",\n    \"code\": \"actual code to implement\",\n    \"filePath\": \"path/to/file.ts\",\n    \"explanation\": \"Why this fix addresses the issue\"\n  \x7d\n]")

/-- The canned fallback fix list of `generateFixes`. -/
def fallbackFixes : List SuggestedFix :=
  [ { id := "fix-1", description := .str "Add error handling and retry logic",
      priority := .str "high", fixType := .str "code", code := none, filePath := none,
      explanation := .str "Implement proper error handling to gracefully handle failures and prevent cascading issues" } ]

/-- Normalization of one parsed fix object with its positional id. -/
def mkFix (i : Nat) (fx : Json) : SuggestedFix :=
  { id := "fix-" ++ toString i,
    description := jsOr (fx.getField "description") (.str "Generated fix"),
    priority := jsOr (fx.getField "priority") (.str "medium"),
    fixType := jsOr (fx.getField "type") (.str "code"),
    code := fx.getField "code",
    filePath := fx.getField "filePath",
    explanation := jsOr (fx.getField "explanation") (.str "Generated fix explanation") }

/-- `generateFixes`: one oracle call, bracket-span extraction and parse;
the oracle call and the parse sit inside a try whose failure falls through
to the canned fallback, as does an absent bracket span. -/
def generateFixes (oracle : Oracle) (provider : AIProvider) (rootCause : Json)
    (logs : Option ParsedLog) : Except String (List SuggestedFix) := do
  let fixPrompt ← buildFixPrompt rootCause logs
  match generateAnalysis oracle provider fixPrompt with
  | .error _ => pure fallbackFixes
  | .ok response =>
    match spanBetween (Char.ofNat 91) (Char.ofNat 93) response with
    | none => pure fallbackFixes
    | some jsonText =>
      match jsonParse jsonText with
      | some (.arr fixes) => pure (fixes.mapIdx mkFix)
      | _ => pure fallbackFixes

/-- The per-fix test prompt. -/
def testPromptFor (fx : SuggestedFix) : String :=
  "Generate a comprehensive unit test for this fix:\n\nFix Description: " ++
    jsToString fx.description ++ "\nFile Path: " ++ jsValToString fx.filePath ++
    "\nCode:\n" ++ jsValToString fx.code ++
    "\n\nGenerate a unit test that:\n1. Tests the main functionality\n2. Tests error conditions\n3. Tests edge cases\n4. Uses appropriate testing framework (Jest/Mocha for TypeScript/JavaScript, pytest for Python)\n\nFormat as JSON:\n\x7b\n  \"description\": \"Test description\",\n  \"framework\": \"jest|mocha|pytest\",\n  \"code\": \"complete test code\",\n  \"filePath\": \"path/to/test/file\"\n\x7d"

/-- `filePath.replace(/\.ts$/, '.test.ts')`. -/
def replaceTsSuffix (s : String) : String :=
  if s.endsWith ".ts" then s.dropRight 3 ++ ".test.ts" else s

/-- The default test file path derived from the fix; `.replace` on a
non-string fix path throws (inside the per-fix try). -/
def replacedFixPath (fx : SuggestedFix) : Except String Json :=
  match fx.filePath with
  | some (.str s) => .ok (.str (replaceTsSuffix s))
  | _ => .error "TypeError: fix.filePath.replace is not a function"

/-- `generateUnitTests`: for the first three fixes carrying truthy code and
file path, one oracle call each; every failure inside the per-fix try
(call, parse, or path replacement) silently skips that fix. -/
def generateUnitTests (oracle : Oracle) (provider : AIProvider)
    (fixes : List SuggestedFix) : List UnitTest :=
  (fixes.take 3).foldl
    (fun tests fx =>
      if jsTruthy fx.code && jsTruthy fx.filePath then
        match generateAnalysis oracle provider (testPromptFor fx) with
        | .error _ => tests
        | .ok response =>
          match spanBetween (Char.ofNat 123) (Char.ofNat 125) response with
          | none => tests
          | some jsonText =>
            match jsonParse jsonText with
            | none => tests
            | some testJson =>
              let fpResult :=
                match testJson.getField "filePath" with
                | some v => if v.truthy then Except.ok v else replacedFixPath fx
                | none => replacedFixPath fx
              match fpResult with
              | .error _ => tests
              | .ok fp =>
                tests ++
                  [ { id := "test-" ++ fx.id,
                      description := jsOr (testJson.getField "description")
                        (.str ("Test for " ++ jsToString fx.description)),
                      framework := jsOr (testJson.getField "framework") (.str "jest"),
                      code := jsOr (testJson.getField "code")
                        (.str "// Test code generation failed"),
                      filePath := fp } ]
      else tests)
    []

/-- `AnalysisEngine.analyze`: flag defaults, prompt construction, the
unguarded verdict-phase oracle call, then the three conditional phases in
source order.  Note that only the fix and test phases guard their oracle
calls; a verdict-phase rejection propagates out of `analyze`. -/
def analyze (oracle : Oracle) (provider : AIProvider) (mcpManager : MCPManager)
    (request : AnalysisRequest) : Except String AnalysisResult := do
  let includeFixes := request.includeFixes.getD true
  let includeTests := request.includeTests.getD true
  let includeCodeAnalysis := request.includeCodeAnalysis.getD true
  let prompt ← buildAnalysisPrompt request.userMessage request.logs
  let aiResponse ← generateAnalysis oracle provider prompt
  let base := parseAIResponse aiResponse
  let withCode ←
    match (if includeCodeAnalysis then request.logs else none) with
    | some l => do
      let ca ← performCodeAnalysis mcpManager l base.rootCause
      pure { base with codeAnalysis := some ca }
    | none => pure base
  let withFixes ←
    if includeFixes then do
      let fixes ← generateFixes oracle provider withCode.rootCause request.logs
      pure { withCode with suggestedFixes := fixes }
    else pure withCode
  pure
    (if includeTests && 0 < withFixes.suggestedFixes.length then
      { withFixes with
          unitTests := generateUnitTests oracle provider withFixes.suggestedFixes }
    else withFixes)


/- ### Concrete fixtures used by the claim checks -/

/-- A well-behaved oracle test double: answers the three prompt kinds of the
orchestrator with a verdict object, a one-element fix array carrying code
and a file path, and a test object. -/
def flagDemoOracle : Oracle := fun p =>
  .ok (if startsSeg "Generate a comprehensive unit test".data p.data then
        "\x7b\"description\": \"t\", \"framework\": \"jest\", \"code\": \"expect(1)\", \"filePath\": \"db.test.ts\"\x7d"
      else if startsSeg "Based on the root cause analysis".data p.data then
        "[\x7b\"description\": \"Add retry\", \"priority\": \"high\", \"type\": \"code\", \"code\": \"retry()\", \"filePath\": \"db.ts\", \"explanation\": \"e\"\x7d]"
      else "\x7b\"rootCause\": \"Database connection pool exhausted\", \"confidence\": 0.9, \"reasoning\": \"r\"\x7d")

/-- An aggregated batch with no records (supplying logs without log lines). -/
def emptyBatch : ParsedLog :=
  { entries := [], totalEntries := 0, errorCount := 0, warnCount := 0,
    timeRangeStart := none, timeRangeEnd := none, sources := [] }

/-- Three records exercising the time-span computation: two parseable
timestamps whose date strings sort against their chronological order, and
one unparseable timestamp. -/
def spanDemoEntries : List LogEntry :=
  [ { timestamp := some (.str "2023-01-04T00:00:00Z"), level := "info",
      message := .str "a", source := none, stackTrace := none, context := none },
    { timestamp := some (.str "2024-01-07T00:00:00Z"), level := "info",
      message := .str "b", source := none, stackTrace := none, context := none },
    { timestamp := some (.str "not a date"), level := "info",
      message := .str "c", source := none, stackTrace := none, context := none } ]

/-- A single error record whose message contains "Connection Timeout". -/
def patternDemoEntries : List LogEntry :=
  [ { timestamp := some (.str "2024-06-14T12:00:00Z"), level := "error",
      message := .str "Database Connection Timeout after 30s", source := none,
      stackTrace := none, context := none } ]

/-! ## Helper lemmas -/

theorem startsSeg_of_append {a b l : List Char} (h : startsSeg (a ++ b) l = true) :
    startsSeg a l = true := by
  induction a generalizing l with
  | nil => simp [startsSeg]
  | cons x xs ih =>
    cases l with
    | nil => simp [startsSeg] at h
    | cons c cs =>
      simp only [List.cons_append, startsSeg, Bool.and_eq_true] at h ⊢
      exact ⟨h.1, ih h.2⟩

theorem containsSeg_of_startsSeg {n l : List Char} (h : startsSeg n l = true) :
    containsSeg n l = true := by
  cases l with
  | nil => simpa [containsSeg] using h
  | cons c cs => simp [containsSeg, h]

theorem containsSeg_of_startsSeg_append {a b l : List Char}
    (h : startsSeg (a ++ b) l = true) : containsSeg b l = true := by
  induction a generalizing l with
  | nil => exact containsSeg_of_startsSeg h
  | cons x xs ih =>
    cases l with
    | nil => simp [startsSeg] at h
    | cons c cs =>
      simp only [List.cons_append, startsSeg, Bool.and_eq_true] at h
      have := ih h.2
      simp [containsSeg, this]

theorem containsSeg_append_left {a b h : List Char}
    (hc : containsSeg (a ++ b) h = true) : containsSeg a h = true := by
  induction h with
  | nil =>
    cases a with
    | nil => simp [containsSeg, startsSeg]
    | cons x xs => simp [containsSeg, startsSeg] at hc
  | cons c cs ih =>
    simp only [containsSeg, Bool.or_eq_true] at hc ⊢
    rcases hc with hc | hc
    · exact Or.inl (startsSeg_of_append hc)
    · exact Or.inr (ih hc)

theorem containsSeg_append_right {a b h : List Char}
    (hc : containsSeg (a ++ b) h = true) : containsSeg b h = true := by
  induction h with
  | nil =>
    cases a with
    | nil => simpa [containsSeg] using hc
    | cons x xs => simp [containsSeg, startsSeg] at hc
  | cons c cs ih =>
    simp only [containsSeg, Bool.or_eq_true] at hc ⊢
    rcases hc with hc | hc
    · have := containsSeg_of_startsSeg_append hc
      simp only [containsSeg, Bool.or_eq_true] at this
      exact this
    · exact Or.inr (ih hc)

theorem mem_setAddStr {l : List String} {x t : String} :
    t ∈ setAddStr l x ↔ t ∈ l ∨ t = x := by
  unfold setAddStr
  split
  next hc =>
    have hx : x ∈ l := by simpa using hc
    constructor
    · exact Or.inl
    · rintro (h | rfl)
      · exact h
      · exact hx
  next hc => simp

theorem nodup_setAddStr {l : List String} {x : String} (h : l.Nodup) :
    (setAddStr l x).Nodup := by
  unfold setAddStr
  split
  next hc => exact h
  next hc =>
    have hx : x ∉ l := by simpa using hc
    simp [List.nodup_append, h, hx]

theorem mem_patternStep {m t : String} {acc : List String} :
    t ∈ patternStep acc m ↔
      t ∈ acc ∨ ∃ p ∈ patternChecks, t = p.1 ∧ p.2 m = true := by
  unfold patternStep
  generalize patternChecks = checks
  induction checks generalizing acc with
  | nil => simp
  | cons c cs ih =>
    simp only [List.foldl_cons]
    rw [ih]
    by_cases hcm : c.2 m = true
    · simp only [hcm, if_true, mem_setAddStr]
      constructor
      · rintro ((h | rfl) | ⟨p, hp, rfl, hpm⟩)
        · exact Or.inl h
        · exact Or.inr ⟨c, by simp, rfl, hcm⟩
        · exact Or.inr ⟨p, by simp [hp], rfl, hpm⟩
      · rintro (h | ⟨p, hp, rfl, hpm⟩)
        · exact Or.inl (Or.inl h)
        · rcases List.mem_cons.mp hp with rfl | hp
          · exact Or.inl (Or.inr rfl)
          · exact Or.inr ⟨p, hp, rfl, hpm⟩
    · simp only [hcm, if_false]
      constructor
      · rintro (h | ⟨p, hp, rfl, hpm⟩)
        · exact Or.inl h
        · exact Or.inr ⟨p, by simp [hp], rfl, hpm⟩
      · rintro (h | ⟨p, hp, rfl, hpm⟩)
        · exact Or.inl h
        · rcases List.mem_cons.mp hp with rfl | hp
          · exact absurd hpm hcm
          · exact Or.inr ⟨p, hp, rfl, hpm⟩

theorem nodup_patternStep {m : String} {acc : List String} (h : acc.Nodup) :
    (patternStep acc m).Nodup := by
  unfold patternStep
  generalize patternChecks = checks
  induction checks generalizing acc with
  | nil => simpa
  | cons c cs ih =>
    simp only [List.foldl_cons]
    split
    next => exact ih (nodup_setAddStr h)
    next => exact ih h

theorem mem_insertStable {le : α → α → Bool} {x a : α} {l : List α} :
    a ∈ insertStable le x l ↔ a = x ∨ a ∈ l := by
  induction l with
  | nil => simp [insertStable]
  | cons y ys ih =>
    unfold insertStable
    split
    next =>
      rw [List.mem_cons, ih, List.mem_cons]
      tauto
    next =>
      rw [List.mem_cons, List.mem_cons]

theorem length_insertStable {le : α → α → Bool} {x : α} {l : List α} :
    (insertStable le x l).length = l.length + 1 := by
  induction l with
  | nil => rfl
  | cons y ys ih =>
    unfold insertStable
    split
    next => simp [ih]
    next => simp

theorem mem_jsSortBy_fold {le : α → α → Bool} {a : α} :
    ∀ (l : List α) (acc : List α),
      a ∈ l.foldl (fun acc x => insertStable le x acc) acc ↔ a ∈ acc ∨ a ∈ l := by
  intro l
  induction l with
  | nil => simp
  | cons x xs ih =>
    intro acc
    simp only [List.foldl_cons, ih, mem_insertStable, List.mem_cons]
    tauto

theorem mem_jsSortBy {le : α → α → Bool} {a : α} {l : List α} :
    a ∈ jsSortBy le l ↔ a ∈ l := by
  unfold jsSortBy
  simp [mem_jsSortBy_fold]

theorem length_jsSortBy_fold {le : α → α → Bool} :
    ∀ (l : List α) (acc : List α),
      (l.foldl (fun acc x => insertStable le x acc) acc).length = acc.length + l.length := by
  intro l
  induction l with
  | nil => simp
  | cons x xs ih =>
    intro acc
    simp only [List.foldl_cons, ih, length_insertStable, List.length_cons]
    omega

theorem length_jsSortBy {le : α → α → Bool} {l : List α} :
    (jsSortBy le l).length = l.length := by
  unfold jsSortBy
  simp [length_jsSortBy_fold]

theorem aggregate_tally :
    ∀ (l : List LogEntry) (acc : Nat × Nat × List Json),
      (l.foldl aggregateStep acc).1 = acc.1 + l.countP (fun e => e.level == "error") ∧
      (l.foldl aggregateStep acc).2.1 = acc.2.1 + l.countP (fun e => e.level == "warn") := by
  intro l
  induction l with
  | nil => simp
  | cons e es ih =>
    intro acc
    simp only [List.foldl_cons, List.countP_cons]
    obtain ⟨h1, h2⟩ := ih (aggregateStep acc e)
    constructor
    · rw [h1]
      unfold aggregateStep
      split <;> simp_all <;> omega
    · rw [h2]
      unfold aggregateStep
      by_cases hw : (e.level == "warn") = true <;> simp [hw] <;> omega

theorem extract_loop (errs : List LogEntry) (acc : List String)
    (h : ∀ e ∈ errs, ∃ s, e.message = .str s) :
    ∃ tags,
      errs.foldlM (fun acc e => (messageLower e.message).map (patternStep acc)) acc =
        .ok tags ∧
      (acc.Nodup → tags.Nodup) ∧
      (∀ t, t ∈ tags ↔ t ∈ acc ∨ ∃ e ∈ errs, ∃ s, e.message = .str s ∧
          ∃ p ∈ patternChecks, t = p.1 ∧ p.2 (lowerStr s) = true) := by
  induction errs generalizing acc with
  | nil => exact ⟨acc, rfl, fun hn => hn, by simp⟩
  | cons e es ih =>
    obtain ⟨s, hs⟩ := h e (List.mem_cons_self e es)
    obtain ⟨tags, htags, hnodup, hmem⟩ :=
      ih (patternStep acc (lowerStr s)) (fun e2 he2 => h e2 (List.mem_cons_of_mem e he2))
    refine ⟨tags, ?_, ?_, ?_⟩
    · simp only [List.foldlM_cons, hs, messageLower, Except.map, Bind.bind, Except.bind]
      exact htags
    · exact fun hn => hnodup (nodup_patternStep hn)
    · intro t
      rw [hmem t, mem_patternStep]
      constructor
      · rintro ((ht | ⟨p, hp, rfl, hpm⟩) | ⟨e2, he2, s2, hs2, hrest⟩)
        · exact Or.inl ht
        · exact Or.inr ⟨e, List.mem_cons_self e es, s, hs, p, hp, rfl, hpm⟩
        · exact Or.inr ⟨e2, List.mem_cons_of_mem e he2, s2, hs2, hrest⟩
      · rintro (ht | ⟨e2, he2, s2, hs2, p, hp, rfl, hpm⟩)
        · exact Or.inl (Or.inl ht)
        · rcases List.mem_cons.mp he2 with rfl | he2
          · rw [hs] at hs2
            injection hs2 with hss
            subst hss
            exact Or.inl (Or.inr ⟨p, hp, rfl, hpm⟩)
          · exact Or.inr ⟨e2, he2, s2, hs2, p, hp, rfl, hpm⟩

theorem toNat_lowerChar_shift {c : Char} (h1 : 65 ≤ c.toNat) (h2 : c.toNat ≤ 90) :
    (Char.ofNat (c.toNat + 32)).toNat = c.toNat + 32 := by
  have hv : c.toNat + 32 < 0xd800 := by
    have := c.val.toNat_lt
    omega
  simp only [Char.ofNat, Nat.isValidChar]
  rw [dif_pos (Or.inl hv)]
  simp [Char.ofNatAux, Char.toNat, UInt32.toNat]

theorem lowerChar_not_upper (c : Char) :
    (65 ≤ (lowerChar c).toNat && (lowerChar c).toNat ≤ 90) = false := by
  unfold lowerChar
  split
  next h =>
    simp only [Bool.and_eq_true, decide_eq_true_eq] at h
    rw [toNat_lowerChar_shift h.1 h.2]
    simp
    omega
  next h =>
    simpa using h

theorem lowerStr_no_upper (s : String) :
    (lowerStr s).data.all (fun c => !(65 ≤ c.toNat && c.toNat ≤ 90)) = true := by
  unfold lowerStr
  simp only [List.all_eq_true]
  intro c hc
  simp only [List.mem_map] at hc
  obtain ⟨a, _, rfl⟩ := hc
  simp [lowerChar_not_upper]

set_option linter.unreachableTactic false
set_option linter.unusedTactic false
set_option linter.unnecessarySeqFocus false

theorem findSome?_exists {α β} {f : α → Option β} {l : List α} {b : β}
    (h : l.findSome? f = some b) : ∃ a ∈ l, f a = some b := by
  induction l with
  | nil => simp [List.findSome?] at h
  | cons x xs ih =>
    rw [List.findSome?_cons] at h
    cases hf : f x with
    | some y =>
      rw [hf] at h
      exact ⟨x, List.mem_cons_self x xs, hf.trans h⟩
    | none =>
      rw [hf] at h
      obtain ⟨a, ha, hfa⟩ := ih h
      exact ⟨a, List.mem_cons_of_mem x ha, hfa⟩

theorem parseStandardFormat_level {line : String} {e : LogEntry}
    (h : parseStandardFormat line = some e) : ∃ w, e.level = lowerStr w := by
  unfold parseStandardFormat at h
  repeat' (split at h)
  all_goals first
    | (subst h; exact ⟨_, rfl⟩)
    | (cases Option.some.inj h; exact ⟨_, rfl⟩)
    | simp at h

theorem parseJSONFormat_level {line : String} {e : LogEntry}
    (h : parseJSONFormat line = some e) : ∃ w, e.level = lowerStr w := by
  unfold parseJSONFormat at h
  repeat' (split at h)
  all_goals first
    | (subst h; exact ⟨_, rfl⟩)
    | (cases Option.some.inj h; exact ⟨_, rfl⟩)
    | simp at h

theorem parseNginxFormat_level {line : String} {e : LogEntry}
    (h : parseNginxFormat line = some e) : ∃ w, e.level = lowerStr w := by
  unfold parseNginxFormat at h
  repeat' (split at h)
  all_goals first
    | (subst h; exact ⟨_, rfl⟩)
    | (cases Option.some.inj h; exact ⟨_, rfl⟩)
    | simp at h

theorem parseApacheFormat_level {line : String} {e : LogEntry}
    (h : parseApacheFormat line = some e) : ∃ w, e.level = lowerStr w := by
  unfold parseApacheFormat at h
  repeat' (split at h)
  all_goals first
    | (subst h; exact ⟨_, rfl⟩)
    | (cases Option.some.inj h; exact ⟨_, rfl⟩)
    | simp at h

theorem parseApplicationFormat_level {line : String} {e : LogEntry}
    (h : parseApplicationFormat line = some e) : ∃ w, e.level = lowerStr w := by
  unfold parseApplicationFormat at h
  split at h
  next heq =>
    split at h
    next hg =>
      obtain ⟨cand, _, hcand⟩ := findSome?_exists h
      repeat' (split at hcand)
      all_goals first
        | (subst hcand; exact ⟨_, rfl⟩)
        | (cases Option.some.inj hcand; exact ⟨_, rfl⟩)
        | simp at hcand
    next => simp at h
  next => simp at h

theorem parseJsonValue_obj_head {fuel : Nat} {l : List Char} {fs : List (String × Json)}
    {r : List Char} (h : parseJsonValue fuel l = some (Json.obj fs, r)) :
    l.head? = some (Char.ofNat 123) := by
  cases fuel with
  | zero => simp [parseJsonValue] at h
  | succ fuel =>
    cases l with
    | nil => simp [parseJsonValue] at h
    | cons c rest =>
      simp only [parseJsonValue] at h
      split_ifs at h with h1 h2 h3 h4 h5 h6 h7
      · simp [h1]
      all_goals (
        repeat first
          | (split at h)
          | (split_ifs at h))
      all_goals simp_all [Option.map_eq_some']

theorem jsonParse_obj_head {s : String} {fs : List (String × Json)}
    (h : jsonParse s = some (.obj fs)) :
    (skipJsonWs s.data).head? = some (Char.ofNat 123) := by
  unfold jsonParse at h
  split at h
  next v rest heq =>
    split_ifs at h
    cases Option.some.inj h
    exact parseJsonValue_obj_head heq
  next => simp at h

theorem parseStandardFormat_head {line : String} {e : LogEntry}
    (h : parseStandardFormat line = some e) :
    ∃ r, line.data = Char.ofNat 91 :: r := by
  unfold parseStandardFormat at h
  split at h
  next c rest heq =>
    split_ifs at h with h1
    · exact ⟨rest, by rw [heq, h1]⟩
  next heq => simp at h

theorem parseApacheFormat_head {line : String} {e : LogEntry}
    (h : parseApacheFormat line = some e) :
    ∃ r, line.data = Char.ofNat 91 :: r := by
  unfold parseApacheFormat at h
  split at h
  next c rest heq =>
    split_ifs at h with h1
    · exact ⟨rest, by rw [heq, h1]⟩
  next heq => simp at h

theorem parseNginxFormat_head {line : String} {e : LogEntry}
    (h : parseNginxFormat line = some e) :
    ∃ c r, line.data = c :: r ∧ isDigitChar c = true := by
  unfold parseNginxFormat at h
  split at h
  next a1 a2 a3 a4 s1 b1 b2 s2 c1 c2 sp d1 d2 co1 e1 e2 co2 f1 f2 rest heq =>
    refine ⟨a1, _, heq, ?_⟩
    split_ifs at h with hg
    · simp only [List.all_cons, Bool.and_eq_true, decide_eq_true_eq] at hg
      tauto
  next => simp at h

theorem parseApplicationFormat_head {line : String} {e : LogEntry}
    (h : parseApplicationFormat line = some e) :
    ∃ c r, line.data = c :: r ∧ isDigitChar c = true := by
  unfold parseApplicationFormat at h
  split at h
  next a1 a2 a3 a4 s1 b1 b2 s2 c1 c2 sp d1 d2 co1 e1 e2 co2 f1 f2 rest heq =>
    refine ⟨a1, _, heq, ?_⟩
    split at h
    next hg =>
      simp only [List.all_cons, Bool.and_eq_true, decide_eq_true_eq] at hg
      tauto
    next => simp at h
  next => simp at h

theorem head_skipJsonWs_not_ws {c : Char} {r : List Char} (hw : isJsonWs c = false) :
    skipJsonWs (c :: r) = c :: r := by
  simp [skipJsonWs, List.dropWhile_cons, hw]

theorem parseLogLine_of_matchers_none {line : String}
    (h1 : parseStandardFormat line = none) (h2 : parseNginxFormat line = none)
    (h3 : parseApacheFormat line = none) (h4 : parseApplicationFormat line = none) :
    parseLogLine line = parseJSONFormat line := by
  unfold parseLogLine logFormats
  simp only [List.findSome?_cons, runFormat, h1, h2, h3, h4]
  cases parseJSONFormat line <;> simp [List.findSome?]

theorem jsonObjLine_matchers_none {line : String} {fs : List (String × Json)}
    (h : jsonParse line = some (.obj fs)) :
    parseStandardFormat line = none ∧ parseNginxFormat line = none ∧
      parseApacheFormat line = none ∧ parseApplicationFormat line = none := by
  have hobj := jsonParse_obj_head h
  cases hd : line.data with
  | nil => rw [hd] at hobj; simp [skipJsonWs] at hobj
  | cons c0 r0 =>
    rw [hd] at hobj
    have hc0 : isJsonWs c0 = true ∨ c0 = Char.ofNat 123 := by
      by_cases hw : isJsonWs c0 = true
      · exact Or.inl hw
      · rw [head_skipJsonWs_not_ws (by simpa using hw)] at hobj
        exact Or.inr (Option.some.inj hobj)
    have hno : c0 ≠ Char.ofNat 91 ∧ isDigitChar c0 = false := by
      rcases hc0 with hw | rfl
      · simp only [isJsonWs, Bool.or_eq_true, beq_iff_eq] at hw
        rcases hw with ((rfl | rfl) | rfl) | rfl <;> exact ⟨by decide, by decide⟩
      · exact ⟨by decide, by decide⟩
    refine ⟨?_, ?_, ?_, ?_⟩
    · cases hs : parseStandardFormat line with
      | none => rfl
      | some e =>
        obtain ⟨r, hr⟩ := parseStandardFormat_head hs
        rw [hd] at hr
        injection hr with hh _
        exact absurd hh hno.1
    · cases hs : parseNginxFormat line with
      | none => rfl
      | some e =>
        obtain ⟨c, r, hr, hdig⟩ := parseNginxFormat_head hs
        rw [hd] at hr
        injection hr with hh _
        rw [← hh] at hdig
        rw [hdig] at hno
        exact absurd hno.2 (by simp)
    · cases hs : parseApacheFormat line with
      | none => rfl
      | some e =>
        obtain ⟨r, hr⟩ := parseApacheFormat_head hs
        rw [hd] at hr
        injection hr with hh _
        exact absurd hh hno.1
    · cases hs : parseApplicationFormat line with
      | none => rfl
      | some e =>
        obtain ⟨c, r, hr, hdig⟩ := parseApplicationFormat_head hs
        rw [hd] at hr
        injection hr with hh _
        rw [← hh] at hdig
        rw [hdig] at hno
        exact absurd hno.2 (by simp)
theorem jsOr_truthy {a : Option Json} {d j : Json} (hj : a = some j)
    (ht : j.truthy = true) : jsOr a d = j := by
  rw [hj]; simp [jsOr, ht]

theorem jsOr_falsy {a : Option Json} {d : Json} (hf : jsTruthy a = false) : jsOr a d = d := by
  cases a with
  | none => rfl
  | some v =>
    simp only [jsTruthy] at hf
    simp [jsOr, hf]

/-- C1 counterexample: with an oracle whose call always fails, `analyze` on a
plain request returns the wrapped transport error instead of a result — the
verdict-phase oracle call is not guarded, so the claim that a failure is
caught at each of the three call sites and never propagates is false. -/
theorem c1_counterexample :
    analyze (fun _ => .error "transport failure") .openai (MCPManager.initial "" "")
      ⟨"users getting 500 errors", none, none, none, none⟩ =
      .error "Failed to generate analysis with openai" := rfl

/-- C1 (amended): an oracle-call failure is caught and converted to the fixed
fallback at the fix-generation call site (the canned fix list) and at the
test-generation call site (the fix is skipped), but the verdict-phase call is
unguarded: `analyze` propagates the wrapped error to its caller. -/
theorem c1_amended_sites :
    (∀ (provider : AIProvider) (st : MCPManager) (msg e : String),
        analyze (fun _ => .error e) provider st ⟨msg, none, none, none, none⟩ =
          .error ("Failed to generate analysis with " ++ provider.value)) ∧
    (∀ (provider : AIProvider) (e : String) (rootCause : Json),
        generateFixes (fun _ => .error e) provider rootCause none = .ok fallbackFixes) ∧
    (∀ (provider : AIProvider) (e : String) (fixes : List SuggestedFix),
        generateUnitTests (fun _ => .error e) provider fixes = []) := by
  refine ⟨fun provider st msg e => rfl, fun provider e rootCause => rfl, ?_⟩
  intro provider e fixes
  unfold generateUnitTests
  generalize fixes.take 3 = l
  induction l with
  | nil => rfl
  | cons fx fs ih =>
    rw [List.foldl_cons]
    by_cases htr : (jsTruthy fx.code && jsTruthy fx.filePath) = true
    · rw [if_pos htr]; exact ih
    · rw [if_neg htr]; exact ih

/-- C2: for every oracle response in which no brace span is found or whose
extracted span fails to parse, verdict extraction returns (does not throw — it
is a total function here) a result whose reasoning is the whole raw response,
whose confidence is 0.3, and whose rootCause is the fixed parsing-failed
sentinel. -/
theorem c2_degraded_fallback (response : String)
    (h : ∀ s, spanBetween (Char.ofNat 123) (Char.ofNat 125) response = some s →
        jsonParse s = none) :
    (parseAIResponse response).reasoning = .str response ∧
    (parseAIResponse response).confidence = .num (3 / 10) ∧
    (parseAIResponse response).rootCause =
      .str "Error analysis completed, but response parsing failed" := by
  have hp : parseAIResponse response = fallbackAnalysisResult response := by
    unfold parseAIResponse
    cases hs : spanBetween (Char.ofNat 123) (Char.ofNat 125) response with
    | none => rfl
    | some s => simp [h s hs]
  rw [hp]
  exact ⟨rfl, rfl, rfl⟩

/-- C2 witness: the theorem applied to a concrete brace-free response. -/
theorem c2_witness :
    (∀ s, spanBetween (Char.ofNat 123) (Char.ofNat 125) "no structured content" = some s →
        jsonParse s = none) ∧
    (parseAIResponse "no structured content").reasoning = .str "no structured content" ∧
    (parseAIResponse "no structured content").confidence = .num (3 / 10) ∧
    (parseAIResponse "no structured content").rootCause =
      .str "Error analysis completed, but response parsing failed" := by
  have hnone : spanBetween (Char.ofNat 123) (Char.ofNat 125) "no structured content" =
      none := rfl
  have h : ∀ s, spanBetween (Char.ofNat 123) (Char.ofNat 125) "no structured content" =
      some s → jsonParse s = none := by
    intro s hs
    rw [hnone] at hs
    exact Option.noConfusion hs
  exact ⟨h, c2_degraded_fallback "no structured content" h⟩
/-- C3 counterexample: a response whose JSON object carries rootCause present
as the empty string and confidence present as the number 0 — both of the
correct type — yet the extracted verdict replaces both with the defaults,
refuting the claim that such values are preserved. -/
theorem c3_counterexample :
    jsonParse "\x7b\"rootCause\": \"\", \"confidence\": 0\x7d" =
      some (.obj [("rootCause", .str ""), ("confidence", .num 0)]) ∧
    (parseAIResponse "\x7b\"rootCause\": \"\", \"confidence\": 0\x7d").rootCause =
      .str "Unable to determine root cause" ∧
    (parseAIResponse "\x7b\"rootCause\": \"\", \"confidence\": 0\x7d").confidence =
      .num (1 / 2) ∧
    (parseAIResponse "\x7b\"rootCause\": \"\", \"confidence\": 0\x7d").rootCause ≠
      .str "" ∧
    (parseAIResponse "\x7b\"rootCause\": \"\", \"confidence\": 0\x7d").confidence ≠
      .num 0 := by
  have h1 : (parseAIResponse "\x7b\"rootCause\": \"\", \"confidence\": 0\x7d").rootCause =
      .str "Unable to determine root cause" := by with_unfolding_all rfl
  have h2 : (parseAIResponse "\x7b\"rootCause\": \"\", \"confidence\": 0\x7d").confidence =
      .num (1 / 2) := by with_unfolding_all rfl
  refine ⟨by with_unfolding_all rfl, h1, h2, ?_, ?_⟩
  · rw [h1]
    intro hcon
    injection hcon with hs
    exact absurd hs (by decide)
  · rw [h2]
    intro hcon
    injection hcon with hq
    exact absurd hq (by norm_num)

/-- C3 (amended): for every response with a parseable JSON object span, each
of the four verdict fields equals the object field value exactly when that
value is truthy; a missing field or a falsy value (empty string, 0, false,
null) is replaced by the default, and truthy values are copied regardless of
their type. -/
theorem c3_amended_truthy_fields (response jsonText : String) (v : Json)
    (h1 : spanBetween (Char.ofNat 123) (Char.ofNat 125) response = some jsonText)
    (h2 : jsonParse jsonText = some v) :
    (∀ j, v.getField "rootCause" = some j → j.truthy = true →
        (parseAIResponse response).rootCause = j) ∧
    (jsTruthy (v.getField "rootCause") = false →
        (parseAIResponse response).rootCause = .str "Unable to determine root cause") ∧
    (∀ j, v.getField "affectedComponents" = some j → j.truthy = true →
        (parseAIResponse response).affectedComponents = j) ∧
    (jsTruthy (v.getField "affectedComponents") = false →
        (parseAIResponse response).affectedComponents = .arr []) ∧
    (∀ j, v.getField "confidence" = some j → j.truthy = true →
        (parseAIResponse response).confidence = j) ∧
    (jsTruthy (v.getField "confidence") = false →
        (parseAIResponse response).confidence = .num (1 / 2)) ∧
    (∀ j, v.getField "reasoning" = some j → j.truthy = true →
        (parseAIResponse response).reasoning = j) ∧
    (jsTruthy (v.getField "reasoning") = false →
        (parseAIResponse response).reasoning = .str "Analysis completed") := by
  unfold parseAIResponse
  rw [h1]
  simp only [h2]
  exact ⟨fun j hj ht => jsOr_truthy hj ht, fun hf => jsOr_falsy hf,
         fun j hj ht => jsOr_truthy hj ht, fun hf => jsOr_falsy hf,
         fun j hj ht => jsOr_truthy hj ht, fun hf => jsOr_falsy hf,
         fun j hj ht => jsOr_truthy hj ht, fun hf => jsOr_falsy hf⟩

/-- C3 witness: the amended theorem applied to a concrete response with a
truthy rootCause and a falsy (zero) confidence. -/
theorem c3_witness :
    spanBetween (Char.ofNat 123) (Char.ofNat 125)
        "\x7b\"rootCause\": \"db outage\", \"confidence\": 0\x7d" =
      some "\x7b\"rootCause\": \"db outage\", \"confidence\": 0\x7d" ∧
    jsonParse "\x7b\"rootCause\": \"db outage\", \"confidence\": 0\x7d" =
      some (.obj [("rootCause", .str "db outage"), ("confidence", .num 0)]) ∧
    (parseAIResponse "\x7b\"rootCause\": \"db outage\", \"confidence\": 0\x7d").rootCause =
      .str "db outage" ∧
    (parseAIResponse "\x7b\"rootCause\": \"db outage\", \"confidence\": 0\x7d").confidence =
      .num (1 / 2) := by
  have hspan : spanBetween (Char.ofNat 123) (Char.ofNat 125)
      "\x7b\"rootCause\": \"db outage\", \"confidence\": 0\x7d" =
      some "\x7b\"rootCause\": \"db outage\", \"confidence\": 0\x7d" := by
    with_unfolding_all rfl
  have hparse : jsonParse "\x7b\"rootCause\": \"db outage\", \"confidence\": 0\x7d" =
      some (.obj [("rootCause", .str "db outage"), ("confidence", .num 0)]) := by
    with_unfolding_all rfl
  have hmain := c3_amended_truthy_fields _ _ _ hspan hparse
  exact ⟨hspan, hparse,
    hmain.1 (.str "db outage") (by with_unfolding_all rfl) rfl,
    hmain.2.2.2.2.2.1 (by with_unfolding_all rfl)⟩
/-- C7 counterexample: an oracle returning the two-character response of an
empty JSON array makes fix generation return an empty list, refuting the
claim that the returned fix list is non-empty for every oracle outcome. -/
theorem c7_counterexample :
    generateFixes (fun _ => .ok "[]") .openai (.str "network partition") none = .ok [] := by
  with_unfolding_all rfl

/-- C7 (amended): when the oracle call fails, fix generation returns exactly
the canned high-priority code fix; for any successful response whose bracket
span does not parse to an empty JSON array, the returned list is non-empty.
Only a span parsing to the empty array yields an empty list. -/
theorem c7_amended_fix_list (oracle : Oracle) (provider : AIProvider)
    (rootCause : Json) (logs : Option ParsedLog) (p : String)
    (hp : buildFixPrompt rootCause logs = .ok p) :
    ((oracle p).isOk = false →
        generateFixes oracle provider rootCause logs = .ok fallbackFixes) ∧
    (∀ resp, oracle p = .ok resp →
      (∀ s, spanBetween (Char.ofNat 91) (Char.ofNat 93) resp = some s →
          jsonParse s ≠ some (.arr [])) →
      ∃ l, generateFixes oracle provider rootCause logs = .ok l ∧ l ≠ []) := by
  have hbind : generateFixes oracle provider rootCause logs =
      (match generateAnalysis oracle provider p with
       | .error _ => pure fallbackFixes
       | .ok response =>
        match spanBetween (Char.ofNat 91) (Char.ofNat 93) response with
        | none => pure fallbackFixes
        | some jsonText =>
          match jsonParse jsonText with
          | some (.arr fixes) => pure (fixes.mapIdx mkFix)
          | _ => pure fallbackFixes) := by
    unfold generateFixes
    rw [hp]
    rfl
  constructor
  · intro hfail
    rw [hbind]
    unfold generateAnalysis
    cases ho : oracle p with
    | ok t => rw [ho] at hfail; simp [Except.isOk, Except.toBool] at hfail
    | error err => rfl
  · intro resp ho hne
    have hok : generateFixes oracle provider rootCause logs =
        (match spanBetween (Char.ofNat 91) (Char.ofNat 93) resp with
         | none => pure fallbackFixes
         | some jsonText =>
           match jsonParse jsonText with
           | some (.arr fixes) => pure (fixes.mapIdx mkFix)
           | _ => pure fallbackFixes) := by
      rw [hbind]
      unfold generateAnalysis
      rw [ho]
    rw [hok]
    cases hs : spanBetween (Char.ofNat 91) (Char.ofNat 93) resp with
    | none => exact ⟨fallbackFixes, rfl, by simp [fallbackFixes]⟩
    | some s =>
      show ∃ l, (match jsonParse s with
                 | some (.arr fixes) => pure (fixes.mapIdx mkFix)
                 | _ => pure fallbackFixes) = Except.ok l ∧ l ≠ []
      cases hj : jsonParse s with
      | none => exact ⟨fallbackFixes, rfl, by simp [fallbackFixes]⟩
      | some v =>
        cases v with
        | arr elems =>
          cases elems with
          | nil => exact absurd hj (hne s hs)
          | cons x xs =>
            refine ⟨(x :: xs).mapIdx mkFix, rfl, ?_⟩
            simp [List.mapIdx_eq_nil_iff]
        | null => exact ⟨fallbackFixes, rfl, by simp [fallbackFixes]⟩
        | bool b => exact ⟨fallbackFixes, rfl, by simp [fallbackFixes]⟩
        | num q => exact ⟨fallbackFixes, rfl, by simp [fallbackFixes]⟩
        | str s2 => exact ⟨fallbackFixes, rfl, by simp [fallbackFixes]⟩
        | obj fields => exact ⟨fallbackFixes, rfl, by simp [fallbackFixes]⟩

/-- C7 witness: the amended theorem applied to a failing oracle at a concrete
root cause. -/
theorem c7_witness :
    buildFixPrompt (.str "database timeout") none =
      .ok (match buildFixPrompt (.str "database timeout") none with
           | .ok p => p
           | .error _ => "") ∧
    generateFixes (fun _ => .error "transport") .openai (.str "database timeout") none =
      .ok fallbackFixes := by
  refine ⟨rfl, ?_⟩
  exact (c7_amended_fix_list (fun _ => .error "transport") .openai (.str "database timeout")
    none _ rfl).1 rfl
/-- C9 counterexample: "github" is a registered backend id of a fresh
manager, no backend is connected, and yet a targeted search succeeds with the
empty result list instead of failing, refuting the claim. -/
theorem c9_counterexample :
    ((MCPManager.initial "" "").servers.map (fun s => s.id) =
      ["github", "gitlab", "code-index"]) ∧
    (MCPManager.initial "" "").getConnectedServers = [] ∧
    (MCPManager.initial "" "").searchCode "db" (some "github") = .ok [] := by
  exact ⟨rfl, rfl, rfl⟩

/-- C9 (amended): a targeted search whose backend has no cached client (is
not connected) silently returns the empty result sequence without error. -/
theorem c9_amended_silent_empty (mgr : MCPManager) (query id : String)
    (h : mgr.clients.find? (fun p => p.1 == id) = none) :
    mgr.searchCode query (some id) = .ok [] := by
  simp [MCPManager.searchCode, h, pure, Except.pure]

/-- C9 witness: the amended theorem applied to the fresh default manager. -/
theorem c9_witness :
    ((MCPManager.initial "" "").clients.find? (fun p => p.1 == "github") = none) ∧
    (MCPManager.initial "" "").searchCode "query" (some "github") = .ok [] :=
  ⟨rfl, c9_amended_silent_empty (MCPManager.initial "" "") "query" "github" rfl⟩

set_option maxRecDepth 8192 in
/-- C10: an omitted feature flag behaves exactly as an explicit true — the
two requests produce identical results for every oracle, provider, manager
and log batch — and on a concrete request carrying only a narrative and logs
the default run performs code analysis, produces a fix and generates a test,
while the all-false run performs none of them. -/
theorem c10_flag_defaults :
    (∀ (oracle : Oracle) (provider : AIProvider) (st : MCPManager) (msg : String)
        (logs : Option ParsedLog),
        analyze oracle provider st ⟨msg, logs, none, none, none⟩ =
          analyze oracle provider st ⟨msg, logs, some true, some true, some true⟩) ∧
    ((analyze flagDemoOracle .openai (MCPManager.initial "" "")
          ⟨"users getting 500 errors", some emptyBatch, none, none, none⟩).toOption.map
        (fun r => (r.codeAnalysis.isSome, r.suggestedFixes.length, r.unitTests.length)) =
      some (true, 1, 1)) ∧
    ((analyze flagDemoOracle .openai (MCPManager.initial "" "")
          ⟨"users getting 500 errors", some emptyBatch, some false, some false,
            some false⟩).toOption.map
        (fun r => (r.codeAnalysis.isSome, r.suggestedFixes.length, r.unitTests.length)) =
      some (false, 0, 0)) := by
  refine ⟨fun oracle provider st msg logs => rfl, ?_, ?_⟩
  · with_unfolding_all rfl
  · with_unfolding_all rfl
/-- C4 counterexample: in the classifier priority order, the
bracketed-timestamp matcher is attempted first and the JSON matcher second,
refuting the claim that the JSON matcher is attempted before the
bracket-timestamp matchers. -/
theorem c4_counterexample :
    logFormats.indexOf LogFormat.standard = 0 ∧ logFormats.indexOf LogFormat.json = 1 ∧
      ¬ logFormats.indexOf LogFormat.json < logFormats.indexOf LogFormat.standard := by
  decide

/-- C4 (amended): although the bracketed-timestamp matcher runs first, no
line that parses as a JSON object matches any of the four non-JSON matchers
(such a line starts with whitespace or an opening brace), so the classifier
still produces its record via the JSON matcher and the line is never
decomposed by a bracket-timestamp pattern. -/
theorem c4_amended_json_priority (line : String) (fs : List (String × Json))
    (h : jsonParse line = some (.obj fs)) :
    parseStandardFormat line = none ∧ parseNginxFormat line = none ∧
    parseApacheFormat line = none ∧ parseApplicationFormat line = none ∧
    parseLogLine line = parseJSONFormat line := by
  obtain ⟨h1, h2, h3, h4⟩ := jsonObjLine_matchers_none h
  exact ⟨h1, h2, h3, h4, parseLogLine_of_matchers_none h1 h2 h3 h4⟩

/-- C4 witness: the amended theorem applied to a concrete JSON log line. -/
theorem c4_witness :
    jsonParse "\x7b\"level\": \"ERROR\", \"message\": \"db down\"\x7d" =
      some (.obj [("level", .str "ERROR"), ("message", .str "db down")]) ∧
    parseLogLine "\x7b\"level\": \"ERROR\", \"message\": \"db down\"\x7d" =
      parseJSONFormat "\x7b\"level\": \"ERROR\", \"message\": \"db down\"\x7d" ∧
    parseLogLine "\x7b\"level\": \"ERROR\", \"message\": \"db down\"\x7d" =
      some { timestamp := none, level := "error", message := .str "db down",
             source := none, stackTrace := none, context := none } := by
  have hp : jsonParse "\x7b\"level\": \"ERROR\", \"message\": \"db down\"\x7d" =
      some (.obj [("level", .str "ERROR"), ("message", .str "db down")]) := by
    with_unfolding_all rfl
  refine ⟨hp, (c4_amended_json_priority _ _ hp).2.2.2.2, ?_⟩
  with_unfolding_all rfl

/-- C5 counterexample: the bracketed-timestamp matcher classifies a CRITICAL
line and stores level "critical", which is outside the four-value set,
refuting the claim that non-JSON matchers only produce error/warn/info/debug. -/
theorem c5_counterexample :
    (parseLogLine "[2024-06-14 12:00:00] CRITICAL: boom").map (fun e => e.level) =
      some "critical" ∧
    (parseStandardFormat "[2024-06-14 12:00:00] CRITICAL: boom").map (fun e => e.level) =
      some "critical" ∧
    "critical" ∉ (["error", "warn", "info", "debug"] : List String) := by
  exact ⟨by with_unfolding_all rfl, by with_unfolding_all rfl, by decide⟩

/-- C5 (amended): no matcher — JSON or otherwise — validates the level
against the four-value set; every matcher stores the lowercased level token
as-is, so the only invariant is that a produced level contains no uppercase
ASCII letters. -/
theorem c5_amended_lowercase (line : String) (e : LogEntry)
    (h : parseLogLine line = some e) :
    e.level.data.all (fun c => !(65 ≤ c.toNat && c.toNat ≤ 90)) = true := by
  obtain ⟨fmt, _, hf⟩ := findSome?_exists h
  have hlev : ∃ w, e.level = lowerStr w := by
    cases fmt with
    | standard => exact parseStandardFormat_level hf
    | json => exact parseJSONFormat_level hf
    | nginx => exact parseNginxFormat_level hf
    | apache => exact parseApacheFormat_level hf
    | application => exact parseApplicationFormat_level hf
  obtain ⟨w, hw⟩ := hlev
  rw [hw]
  exact lowerStr_no_upper w

/-- C5 witness: the amended theorem applied to a concrete classified line. -/
theorem c5_witness :
    parseLogLine "[x] ERROR: ok" =
      some { timestamp := some (.str "x"), level := "error", message := .str "ok",
             source := some (.str "application"), stackTrace := none, context := none } ∧
    ({ timestamp := some (.str "x"), level := "error", message := .str "ok",
       source := some (.str "application"), stackTrace := none,
       context := none : LogEntry }).level.data.all
      (fun c => !(65 ≤ c.toNat && c.toNat ≤ 90)) = true := by
  have hp : parseLogLine "[x] ERROR: ok" =
      some { timestamp := some (.str "x"), level := "error", message := .str "ok",
             source := some (.str "application"), stackTrace := none,
             context := none } := by
    with_unfolding_all rfl
  exact ⟨hp, c5_amended_lowercase _ _ hp⟩
/-- C6 counterexample: aggregating two parseable timestamps (2023 and 2024)
together with an unparseable one yields timeRange.start = Invalid Date (the
unparseable record is not excluded) and timeRange.end = the 2023 instant even
though a parseable 2024 instant exists — so start/end are not the min/max of
parseable timestamps and start ≤ end fails. -/
theorem c6_counterexample :
    (aggregateEntries none spanDemoEntries).timeRangeStart = none ∧
    (aggregateEntries none spanDemoEntries).timeRangeEnd =
      jsDateParse "2023-01-04T00:00:00Z" ∧
    jsDateParse "2023-01-04T00:00:00Z" = some 1672790400000 ∧
    jsDateParse "2024-01-07T00:00:00Z" = some 1704585600000 ∧
    (1672790400000 : Int) < 1704585600000 ∧
    jsNewDate (spanDemoEntries.get? 2 |>.map (fun e => e.timestamp) |>.getD none) = none := by
  refine ⟨?_, ?_, ?_, ?_, by norm_num, ?_⟩ <;> with_unfolding_all rfl

theorem getD_head?_mem {α : Type} {l : List α} (d : α) (hne : l ≠ []) :
    l.head?.getD d ∈ l := by
  cases l with
  | nil => exact absurd rfl hne
  | cons a t => exact List.mem_cons_self a t

theorem getD_getLast?_mem {α : Type} {l : List α} (d : α) (hne : l ≠ []) :
    l.getLast?.getD d ∈ l := by
  rw [List.getLast?_eq_getLast l hne]
  exact List.getLast_mem hne

/-- C6 (amended): every record is counted (totals and per-level tallies are
exact), and the time span bounds are the first and last elements of all
records' `new Date` conversions — unparseable timestamps included as invalid
dates — under the default string-comparing sort; both bounds are always drawn
from the records' converted timestamps when at least one record exists, but
they need not be the chronological extrema. -/
theorem c6_amended_aggregate (now : JSDate) (entries : List LogEntry)
    (h : entries ≠ []) :
    (aggregateEntries now entries).totalEntries = entries.length ∧
    (aggregateEntries now entries).errorCount =
      entries.countP (fun e => e.level == "error") ∧
    (aggregateEntries now entries).warnCount =
      entries.countP (fun e => e.level == "warn") ∧
    (aggregateEntries now entries).timeRangeStart ∈
      entries.map (fun e => jsNewDate e.timestamp) ∧
    (aggregateEntries now entries).timeRangeEnd ∈
      entries.map (fun e => jsNewDate e.timestamp) := by
  have hsorted_ne : jsSortBy jsDateLe (entries.map (fun e => jsNewDate e.timestamp)) ≠ [] := by
    intro hc
    have hlen := @length_jsSortBy JSDate jsDateLe
      (entries.map (fun e => jsNewDate e.timestamp))
    rw [hc] at hlen
    simp at hlen
    exact h (List.eq_nil_of_length_eq_zero hlen.symm)
  refine ⟨rfl, ?_, ?_, ?_, ?_⟩
  · have := (aggregate_tally entries (0, 0, [])).1
    simpa using this
  · have := (aggregate_tally entries (0, 0, [])).2
    simpa using this
  · have hmem := getD_head?_mem (l := jsSortBy jsDateLe
      (entries.map (fun e => jsNewDate e.timestamp))) now hsorted_ne
    exact mem_jsSortBy.mp hmem
  · have hmem := getD_getLast?_mem (l := jsSortBy jsDateLe
      (entries.map (fun e => jsNewDate e.timestamp))) now hsorted_ne
    exact mem_jsSortBy.mp hmem

/-- C6 witness: the amended theorem applied to the three-record fixture. -/
theorem c6_witness :
    (spanDemoEntries ≠ []) ∧
    (aggregateEntries none spanDemoEntries).totalEntries = spanDemoEntries.length ∧
    (aggregateEntries none spanDemoEntries).timeRangeEnd ∈
      spanDemoEntries.map (fun e => jsNewDate e.timestamp) := by
  have hne : spanDemoEntries ≠ [] := by simp [spanDemoEntries]
  have := c6_amended_aggregate none spanDemoEntries hne
  exact ⟨hne, this.1, this.2.2.2.2⟩
/-- C8: pattern extraction scans only error-level records (whose messages
must be strings for `.toLowerCase()` not to throw), emits exactly the tags of
the fixed keyword table whose case-insensitive condition holds on some error
message, deduplicates the tags, and a message containing "connection timeout"
contributes both the connection and the timeout tag. -/
theorem c8_pattern_extraction (entries : List LogEntry)
    (h : ∀ e ∈ entries, e.level = "error" → ∃ s, e.message = .str s) :
    ∃ tags, extractErrorPatterns entries = .ok tags ∧ tags.Nodup ∧
      (∀ t, t ∈ tags ↔ ∃ e ∈ entries, e.level = "error" ∧ ∃ s, e.message = .str s ∧
          ∃ p ∈ patternChecks, t = p.1 ∧ p.2 (lowerStr s) = true) ∧
      (∀ e ∈ entries, e.level = "error" → ∀ s, e.message = .str s →
        jsIncludes (lowerStr s) "connection timeout" = true →
        "connection_errors" ∈ tags ∧ "timeout_errors" ∈ tags) := by
  have herrs : ∀ e ∈ entries.filter (fun e => e.level == "error"),
      ∃ s, e.message = .str s := by
    intro e he
    rw [List.mem_filter] at he
    exact h e he.1 (by simpa using he.2)
  obtain ⟨tags, htags, hnodup, hmem⟩ :=
    extract_loop (entries.filter (fun e => e.level == "error")) [] herrs
  have hiff : ∀ t, t ∈ tags ↔ ∃ e ∈ entries, e.level = "error" ∧
      ∃ s, e.message = .str s ∧
        ∃ p ∈ patternChecks, t = p.1 ∧ p.2 (lowerStr s) = true := by
    intro t
    rw [hmem t]
    simp only [List.not_mem_nil, false_or]
    constructor
    · rintro ⟨e, he, rest⟩
      rw [List.mem_filter] at he
      exact ⟨e, he.1, by simpa using he.2, rest⟩
    · rintro ⟨e, he, hlv, rest⟩
      exact ⟨e, List.mem_filter.mpr ⟨he, by simp [hlv]⟩, rest⟩
  refine ⟨tags, htags, hnodup List.nodup_nil, hiff, ?_⟩
  intro e he hlv s hs hct
  have hconn : jsIncludes (lowerStr s) "connection" = true := by
    have hsplit : ("connection timeout".data) = "connection".data ++ " timeout".data := by
      decide
    unfold jsIncludes at hct ⊢
    rw [hsplit] at hct
    exact containsSeg_append_left hct
  have htime : jsIncludes (lowerStr s) "timeout" = true := by
    have hsplit : ("connection timeout".data) = "connection ".data ++ "timeout".data := by
      decide
    unfold jsIncludes at hct ⊢
    rw [hsplit] at hct
    exact containsSeg_append_right hct
  constructor
  · exact (hiff "connection_errors").mpr
      ⟨e, he, hlv, s, hs,
        ⟨("connection_errors", fun m => jsIncludes m "connection"),
          List.mem_cons_self _ _, rfl, hconn⟩⟩
  · exact (hiff "timeout_errors").mpr
      ⟨e, he, hlv, s, hs,
        ⟨("timeout_errors", fun m => jsIncludes m "timeout"),
          List.mem_cons_of_mem _ (List.mem_cons_self _ _), rfl, htime⟩⟩

/-- C8 witness: the theorem applied to a single error record containing
"Connection Timeout". -/
theorem c8_witness :
    (∀ e ∈ patternDemoEntries, e.level = "error" → ∃ s, e.message = .str s) ∧
    ∃ tags, extractErrorPatterns patternDemoEntries = .ok tags ∧
      "connection_errors" ∈ tags ∧ "timeout_errors" ∈ tags := by
  have hmsg : ∀ e ∈ patternDemoEntries, e.level = "error" → ∃ s, e.message = .str s := by
    intro e he _
    rw [patternDemoEntries, List.mem_singleton] at he
    exact ⟨"Database Connection Timeout after 30s", by rw [he]⟩
  obtain ⟨tags, htags, _, _, hconc⟩ := c8_pattern_extraction _ hmsg
  have hboth := hconc _ (by rw [patternDemoEntries]; exact List.mem_singleton.mpr rfl) rfl
    "Database Connection Timeout after 30s" rfl (by with_unfolding_all rfl)
  exact ⟨hmsg, tags, htags, hboth.1, hboth.2⟩
